import Mathlib

/-!
Verification of the multi-tenant agent-assignment and permission-resolution
core of the callmdbe repository.

The embedding models the relational store as an explicit state value and
translates, statement by statement, the Python methods of
`callfairy/apps/accounts/models.py` (User role helpers, Agent.assign_agent,
Agent.revoke_agent), the Django signal receivers of
`callfairy/apps/accounts/signals.py` (which fire on every save or delete of
an Agent row and are therefore folded into the save and delete primitives),
the resolution helpers of `callfairy/apps/accounts/utils/permissions.py`,
and the object-level gates of `callfairy/apps/accounts/permissions.py`.

Users, organisations, agent rows and permissions are identified by natural
numbers standing for their primary keys; the clock is an abstract tick held
in the state (`timezone.now()` reads it).
-/

namespace Callfairy

/-- User.role values: 'user', 'superuser' and 'superadmin'
(User.ROLE_CHOICES in models.py). The spec calls 'superuser' the elevated
role and 'user' the regular role. -/
inductive Role where
  | user
  | superuser
  | superadmin
deriving DecidableEq

/-- One row of the Agent table (models.py, class Agent): the user managing
an organisation, activity flag and revocation audit fields. -/
structure AgentRow where
  id : Nat
  userId : Nat
  orgId : Nat
  is_active : Bool
  assigned_by : Option Nat
  revoked_at : Option Nat
  revoked_by : Option Nat
deriving DecidableEq

/-- One row of the Organisation table: primary key and the is_active flag
(the other columns are descriptive only). -/
structure OrgRow where
  id : Nat
  is_active : Bool
deriving DecidableEq

/-- The relational store: the Agent table, the role column of the User
table (total over user ids), the Organisation table, the UserOrganisation
memberships, the UserPermissionAccess direct grants, the AgentPermissions
grants keyed by agent row id, and the clock. -/
structure St where
  agents : List AgentRow
  roles : Nat → Role
  orgs : List OrgRow
  userOrgs : List (Nat × Nat)
  userPerms : List (Nat × Nat)
  agentPerms : List (Nat × Nat)
  now : Nat

/-- Write one user's role column (user.save(update_fields=['role'])). -/
def setRole (st : St) (u : Nat) (r : Role) : St :=
  { st with roles := fun v => if v = u then r else st.roles v }

/-- User.is_agent: Agent.objects.filter(user=self, is_active=True).exists()
(the per-request `_is_agent_cache` attribute is transparent to the store). -/
def is_agent (st : St) (u : Nat) : Bool :=
  st.agents.any (fun a => a.userId = u && a.is_active)

/-- User.get_managed_organisation: None unless is_agent(); otherwise the
organisation of Agent.objects.filter(user=self, is_active=True).first()
(the list order stands for the query order; under the uniqueness invariant
at most one row matches). -/
def get_managed_organisation (st : St) (u : Nat) : Option Nat :=
  if is_agent st u then
    ((st.agents.filter (fun a => a.userId = u && a.is_active)).head?).map (·.orgId)
  else none

/-- User.get_direct_permissions: keys granted through UserPermissionAccess. -/
def get_direct_permissions (st : St) (u : Nat) : List Nat :=
  (st.userPerms.filter (fun p => p.1 = u)).map (·.2)

/-- User.get_agent_permissions: empty unless is_agent(); then the grants of
Agent.objects.get(user=self, is_active=True), with Agent.DoesNotExist
caught to the empty set. The `.get` call demands a unique match, so any
other shape of the filtered list yields no permissions here. -/
def get_agent_permissions (st : St) (u : Nat) : List Nat :=
  if is_agent st u then
    match st.agents.filter (fun a => a.userId = u && a.is_active) with
    | [a] => (st.agentPerms.filter (fun p => p.1 = a.id)).map (·.2)
    | _ => []
  else []

/-- User.get_all_permissions: direct and agent grants, deduplicated. -/
def get_all_permissions (st : St) (u : Nat) : List Nat :=
  (get_direct_permissions st u ++ get_agent_permissions st u).dedup

/-- User.has_permission: SuperAdmin short-circuits to true, every other
role looks the key up in the combined grant set. -/
def has_permission (st : St) (u : Nat) (key : Nat) : Bool :=
  if st.roles u = Role.superadmin then true
  else (get_all_permissions st u).contains key

/-- User.sync_role_with_agent_status: upgrade to 'superuser' when an active
agent row exists and the role is anything else, downgrade to 'user' when no
active agent row exists and the role is 'superuser'. -/
def sync_role_with_agent_status (st : St) (u : Nat) : St :=
  if is_agent st u then
    if st.roles u ≠ Role.superuser then setRole st u Role.superuser else st
  else
    if st.roles u = Role.superuser then setRole st u Role.user else st

/-- Writing an Agent row back to the table: every position whose primary
key matches receives the new value. -/
def replaceAgent (agents : List AgentRow) (a : AgentRow) : List AgentRow :=
  agents.map (fun b => if b.id = a.id then a else b)

/-- The pre_save receiver sync_user_role_on_agent_revoke (signals.py): when
an existing row is being flipped from active to inactive, and the store
shows no other active assignment for the row's user, a 'superuser' role is
downgraded to 'user'. The old values are read back from the store by
primary key; a row not yet stored is skipped. -/
def sync_user_role_on_agent_revoke (st : St) (a : AgentRow) : St :=
  match st.agents.find? (fun b => b.id = a.id) with
  | none => st
  | some old =>
    if old.is_active = true ∧ a.is_active = false then
      if (st.agents.any (fun b => b.userId = a.userId && b.is_active && b.id ≠ a.id)) = false
          ∧ st.roles a.userId = Role.superuser then
        setRole st a.userId Role.user
      else st
    else st

/-- The post_save receiver sync_user_role_on_agent_assign (signals.py):
whenever an active row is saved, the row's user is upgraded to 'superuser'
unless already carrying that role. -/
def sync_user_role_on_agent_assign (st : St) (a : AgentRow) : St :=
  if a.is_active = true ∧ st.roles a.userId ≠ Role.superuser then
    setRole st a.userId Role.superuser
  else st

/-- agent.save() on an existing row, with the Django signals of signals.py
attached to the Agent sender: the pre_save receiver runs against the old
stored values, the row is written, and the post_save receiver runs on the
result. The audit receivers only log. -/
def agent_save_update (st : St) (a : AgentRow) : St :=
  let st1 := sync_user_role_on_agent_revoke st a
  sync_user_role_on_agent_assign { st1 with agents := replaceAgent st1.agents a } a

/-- Agent.objects.create: the fresh row is inserted (its primary key is not
yet set when pre_save runs, so that receiver's body is skipped) and the
post_save receiver fires on it. -/
def agent_create (st : St) (a : AgentRow) : St :=
  sync_user_role_on_agent_assign { st with agents := st.agents ++ [a] } a

/-- The post_delete receiver sync_user_role_on_agent_delete (signals.py):
after a row is removed, the row's user is downgraded from 'superuser' to
'user' when no active assignment remains. -/
def sync_user_role_on_agent_delete (st : St) (row : AgentRow) : St :=
  if (st.agents.any (fun b => b.userId = row.userId && b.is_active)) = false
      ∧ st.roles row.userId = Role.superuser then
    setRole st row.userId Role.user
  else st

/-- agent.delete(): the row leaves the table and the post_delete receiver
fires on the deleted instance. -/
def agent_delete (st : St) (rowId : Nat) : St :=
  match st.agents.find? (fun b => b.id = rowId) with
  | none => st
  | some row =>
    sync_user_role_on_agent_delete
      { st with agents := st.agents.filter (fun b => b.id ≠ rowId) } row

/-- The in-place mutation performed on an evicted or revoked row before it
is saved: clear is_active and stamp the revocation audit fields. -/
def deactivate (revokedBy : Option Nat) (now : Nat) (a : AgentRow) : AgentRow :=
  { a with is_active := false, revoked_at := some now, revoked_by := revokedBy }

/-- The first loop of Agent.assign_agent: every currently-active agent row
of the organisation is deactivated, saved, and the displaced user's role is
re-synced (agent.user.sync_role_with_agent_status()). -/
def evictOrgAgents (st : St) (orgId assignedBy : Nat) : St :=
  (st.agents.filter (fun a => a.orgId = orgId && a.is_active)).foldl
    (fun acc s =>
      let acc1 := agent_save_update acc (deactivate (some assignedBy) acc.now s)
      sync_role_with_agent_status acc1 s.userId) st

/-- The second loop of Agent.assign_agent: every currently-active agent row
of the user being assigned is deactivated and saved (this loop performs no
explicit role re-sync; only the signals run). -/
def evictUserAgents (st : St) (userId assignedBy : Nat) : St :=
  (st.agents.filter (fun a => a.userId = userId && a.is_active)).foldl
    (fun acc s => agent_save_update acc (deactivate (some assignedBy) acc.now s)) st

/-- Result of Agent.assign_agent: the final store and the returned row. -/
structure AssignResult where
  state : St
  newAgent : AgentRow

/-- Agent.assign_agent(user, organisation, assigned_by): deactivate the
organisation's active agents (re-syncing each displaced user), deactivate
the user's own active assignments, create the new active row (with the
fresh primary key newId), and finally write role 'superuser' on the user
unconditionally. The four phases are separate unwrapped writes: the
function opens no transaction. -/
def assign_agent (st : St) (userId orgId assignedBy newId : Nat) : AssignResult :=
  let st1 := evictOrgAgents st orgId assignedBy
  let st2 := evictUserAgents st1 userId assignedBy
  let row : AgentRow :=
    { id := newId, userId := userId, orgId := orgId, is_active := true,
      assigned_by := some assignedBy, revoked_at := none, revoked_by := none }
  let st3 := agent_create st2 row
  let st4 := setRole st3 userId Role.superuser
  ⟨st4, row⟩

/-- Agent.revoke_agent(agent_id, revoked_by): Agent.objects.get(id=...)
raises DoesNotExist (surfaced as NotFound) when no row carries the id,
modelled by `none`; otherwise the row is deactivated and saved and the
user's role re-synced. -/
def revoke_agent (st : St) (agentId : Nat) (revokedBy : Option Nat) :
    Option (St × AgentRow) :=
  match st.agents.find? (fun a => a.id = agentId) with
  | none => none
  | some a =>
    let a' := deactivate revokedBy st.now a
    let st1 := agent_save_update st a'
    let st2 := sync_role_with_agent_status st1 a.userId
    some (st2, a')

/-- check_user_permission (utils/permissions.py): superadmin bypass; with
an organisation context an agent is confined to the managed organisation;
everyone else falls through to the combined permission lookup. -/
def check_user_permission (st : St) (u : Nat) (key : Nat)
    (organisation : Option Nat) : Bool :=
  if st.roles u = Role.superadmin then true
  else
    match organisation with
    | some org =>
      if is_agent st u then
        match get_managed_organisation st u with
        | some m => if m = org then has_permission st u key else false
        | none => false
      else has_permission st u key
    | none => has_permission st u key

/-- get_user_accessible_organisations (utils/permissions.py): superadmin
sees all active organisations; an agent sees the row of the managed
organisation filtered by is_active; everyone else sees the active
organisations they hold a UserOrganisation membership in. -/
def get_user_accessible_organisations (st : St) (u : Nat) : List Nat :=
  if st.roles u = Role.superadmin then
    (st.orgs.filter (·.is_active)).map (·.id)
  else
    if is_agent st u then
      match get_managed_organisation st u with
      | some m => (st.orgs.filter (fun o => o.id = m && o.is_active)).map (·.id)
      | none => []
    else
      (st.orgs.filter (fun o => o.is_active && (st.userOrgs.contains (u, o.id)))).map (·.id)

/-- can_user_access_organisation: membership of the accessible set. -/
def can_user_access_organisation (st : St) (u : Nat) (org : Nat) : Bool :=
  (get_user_accessible_organisations st u).contains org

/-- can_user_manage_organisation: superadmin, or the active agent of
exactly this organisation. -/
def can_user_manage_organisation (st : St) (u : Nat) (org : Nat) : Bool :=
  if st.roles u = Role.superadmin then true
  else
    if is_agent st u then
      match get_managed_organisation st u with
      | some m => m = org
      | none => false
    else false

/-- The closed set of target objects the object-level gates authorize: an
Organisation instance itself, an object carrying an `organisation`
attribute, or an object with neither shape. -/
inductive TargetObj where
  | organisation (orgId : Nat)
  | orgScoped (orgId : Nat)
  | other
deriving DecidableEq

/-- The duck-typed tenant resolution every object-level gate performs:
hasattr(obj, 'organisation') first, then isinstance(obj, Organisation),
else no organisation can be determined. -/
def resolveOrg : TargetObj → Option Nat
  | TargetObj.orgScoped o => some o
  | TargetObj.organisation o => some o
  | TargetObj.other => none

/-- IsAgentOfOrganisation.has_object_permission (permissions.py): superadmin
bypass, deny when no organisation resolves, otherwise the requester must be
the agent managing exactly the resolved organisation. -/
def is_agent_of_organisation_obj (st : St) (u : Nat) (obj : TargetObj) : Bool :=
  if st.roles u = Role.superadmin then true
  else
    match resolveOrg obj with
    | none => false
    | some org =>
      if is_agent st u then
        match get_managed_organisation st u with
        | some m => m = org
        | none => false
      else false

/-- CanAccessOrganisation.has_object_permission: superadmin bypass, deny
when no organisation resolves, else can_user_access_organisation. -/
def can_access_organisation_obj (st : St) (u : Nat) (obj : TargetObj) : Bool :=
  if st.roles u = Role.superadmin then true
  else
    match resolveOrg obj with
    | none => false
    | some org => can_user_access_organisation st u org

/-- CanManageOrganisation.has_object_permission: superadmin bypass, deny
when no organisation resolves, else can_user_manage_organisation. -/
def can_manage_organisation_obj (st : St) (u : Nat) (obj : TargetObj) : Bool :=
  if st.roles u = Role.superadmin then true
  else
    match resolveOrg obj with
    | none => false
    | some org => can_user_manage_organisation st u org

/-- HasOrganisationPermission.has_object_permission: superadmin bypass,
deny when no organisation resolves; with no permission_required on the view
the gate degrades to the access check, otherwise it delegates to
check_user_permission with the resolved organisation as context. -/
def has_organisation_permission_obj (st : St) (u : Nat) (obj : TargetObj)
    (permissionRequired : Option Nat) : Bool :=
  if st.roles u = Role.superadmin then true
  else
    match resolveOrg obj with
    | none => false
    | some org =>
      match permissionRequired with
      | none => can_user_access_organisation st u org
      | some k => check_user_permission st u k (some org)

/-- HasPermissionKey.has_permission (permissions.py): deny unauthenticated
requests, superadmin bypass, allow outright when the view declares no
permission_required, else look the key up on the user. -/
def has_permission_key_gate (st : St) (authenticated : Bool) (u : Nat)
    (permissionRequired : Option Nat) : Bool :=
  if authenticated = false then false
  else if st.roles u = Role.superadmin then true
  else
    match permissionRequired with
    | none => true
    | some k => has_permission st u k

/-- The store-level invariant unique_active_agent_per_org (Agent.Meta
constraints): no two distinct positions of the Agent table hold active rows
of the same organisation. -/
def uniqueActivePerOrg (st : St) : Prop :=
  st.agents.Pairwise
    (fun a b => a.is_active = true → b.is_active = true → a.orgId ≠ b.orgId)

/-- The store-level invariant unique_active_agent_per_user: no two distinct
positions of the Agent table hold active rows of the same user. -/
def uniqueActivePerUser (st : St) : Prop :=
  st.agents.Pairwise
    (fun a b => a.is_active = true → b.is_active = true → a.userId ≠ b.userId)

/-- Primary keys of the Agent table are pairwise distinct. -/
def agentIdsDistinct (st : St) : Prop :=
  st.agents.Pairwise (fun a b => a.id ≠ b.id)

/-- Primary keys of the Organisation table are pairwise distinct. -/
def orgIdsDistinct (st : St) : Prop :=
  st.orgs.Pairwise (fun a b => a.id ≠ b.id)

instance (st : St) : Decidable (uniqueActivePerOrg st) := by
  unfold uniqueActivePerOrg; infer_instance

instance (st : St) : Decidable (uniqueActivePerUser st) := by
  unfold uniqueActivePerUser; infer_instance

instance (st : St) : Decidable (agentIdsDistinct st) := by
  unfold agentIdsDistinct; infer_instance

instance (st : St) : Decidable (orgIdsDistinct st) := by
  unfold orgIdsDistinct; infer_instance

/-- States reachable from a starting store by the two mutators of the
Agent Assignment Engine. -/
inductive Reachable : St → St → Prop where
  | refl (st : St) : Reachable st st
  | assign (st st' : St) (u o ab nid : Nat) :
      Reachable st st' → Reachable st (assign_agent st' u o ab nid).state
  | revoke (st st' st'' : St) (aid : Nat) (rb : Option Nat) (a : AgentRow) :
      Reachable st st' → revoke_agent st' aid rb = some (st'', a) →
      Reachable st st''

/-! Small list facts shared by several claims. -/

theorem contains_iff_mem {α : Type} [BEq α] [LawfulBEq α] (l : List α) (k : α) :
    l.contains k = true ↔ k ∈ l := by
  simp [List.contains]

/-! Claim C3: organisation context confines an agent's authority. -/

/-- C3: for a non-superadmin user who is the active agent of organisation
o, check_user_permission with any other organisation context is false
regardless of the user's grants, and with the managed organisation as
context it is true exactly when the combined direct-and-agent permission
set holds the key. -/
theorem C3_agent_org_scoping (st : St) (u k o o' : Nat)
    (hsa : st.roles u ≠ Role.superadmin)
    (hag : is_agent st u = true)
    (hm : get_managed_organisation st u = some o)
    (hne : o' ≠ o) :
    check_user_permission st u k (some o') = false ∧
    (check_user_permission st u k (some o) = true ↔ k ∈ get_all_permissions st u) := by
  constructor
  · simp only [check_user_permission, if_neg hsa, hag, if_pos rfl, hm]
    simp [Ne.symm hne]
  · simp only [check_user_permission, if_neg hsa, hag, if_pos rfl, hm, if_pos rfl,
      has_permission, if_neg hsa]
    exact contains_iff_mem _ k

/-- Store used to witness C3: user 1 is the active agent of organisation 5
with agent grant 200 and direct grant 100. -/
def st3w : St :=
  { agents := [⟨1, 1, 5, true, some 9, none, none⟩],
    roles := fun n => if n = 1 then Role.superuser else Role.user,
    orgs := [⟨5, true⟩, ⟨6, true⟩], userOrgs := [],
    userPerms := [(1, 100)], agentPerms := [(1, 200)], now := 0 }

theorem C3_agent_org_scoping_witness :
    (st3w.roles 1 ≠ Role.superadmin ∧ is_agent st3w 1 = true ∧
      get_managed_organisation st3w 1 = some 5 ∧ (6 : Nat) ≠ 5) ∧
    (check_user_permission st3w 1 200 (some 6) = false ∧
      (check_user_permission st3w 1 200 (some 5) = true ↔
        200 ∈ get_all_permissions st3w 1)) :=
  ⟨⟨by decide, by decide, by decide, by decide⟩,
    C3_agent_org_scoping st3w 1 200 5 6 (by decide) (by decide) (by decide) (by decide)⟩

/-! Claim C10: unresolvable organisation context fails closed. -/

/-- C10: for a non-superadmin requester, every object-level gate denies
access when the target object is neither an Organisation nor carries an
organisation attribute. -/
theorem C10_unresolvable_fails_closed (st : St) (u : Nat)
    (hsa : st.roles u ≠ Role.superadmin) :
    is_agent_of_organisation_obj st u TargetObj.other = false ∧
    can_access_organisation_obj st u TargetObj.other = false ∧
    can_manage_organisation_obj st u TargetObj.other = false ∧
    ∀ pk : Option Nat, has_organisation_permission_obj st u TargetObj.other pk = false := by
  refine ⟨?_, ?_, ?_, fun pk => ?_⟩ <;>
    simp [is_agent_of_organisation_obj, can_access_organisation_obj,
      can_manage_organisation_obj, has_organisation_permission_obj, resolveOrg, hsa]

/-- Store used to witness C10: a plain non-superadmin user. -/
def st10w : St :=
  { agents := [], roles := fun _ => Role.user, orgs := [⟨1, true⟩],
    userOrgs := [], userPerms := [], agentPerms := [], now := 0 }

theorem C10_unresolvable_fails_closed_witness :
    st10w.roles 1 ≠ Role.superadmin ∧
    can_access_organisation_obj st10w 1 TargetObj.other = false :=
  ⟨by decide, (C10_unresolvable_fails_closed st10w 1 (by decide)).2.1⟩

/-! Claim C9: behaviour of the keyed gates when no permission key is set. -/

/-- Store refuting C9: user 1 is a plain user with no memberships, no
grants and no agent row; organisation 1 exists and is active. -/
def st9 : St :=
  { agents := [], roles := fun _ => Role.user, orgs := [⟨1, true⟩],
    userOrgs := [], userPerms := [], agentPerms := [], now := 0 }

/-- C9 counterexample: the view-level keyed gate HasPermissionKey, asked
with no permission_required, allows authenticated user 1 outright even
though that user can access no organisation at all, so the gate does not
default to an access-only check. -/
theorem C9_cex :
    has_permission_key_gate st9 true 1 none = true ∧
    ∀ o ∈ st9.orgs, can_user_access_organisation st9 1 o.id = false := by decide

/-- C9 amended: the object-level keyed gate HasOrganisationPermission does
default to the access-only check when no permission key is declared, but
the view-level HasPermissionKey gate with no key allows any authenticated
non-superadmin unconditionally. -/
theorem C9_amended_keyless_gates (st : St) (u : Nat)
    (hsa : st.roles u ≠ Role.superadmin) :
    (∀ obj org, resolveOrg obj = some org →
      has_organisation_permission_obj st u obj none =
        can_user_access_organisation st u org) ∧
    has_permission_key_gate st true u none = true := by
  constructor
  · intro obj org h
    simp [has_organisation_permission_obj, hsa, h]
  · simp [has_permission_key_gate, hsa]

theorem C9_amended_keyless_gates_witness :
    st9.roles 1 ≠ Role.superadmin ∧
    has_organisation_permission_obj st9 1 (TargetObj.organisation 1) none =
      can_user_access_organisation st9 1 1 :=
  ⟨by decide,
    (C9_amended_keyless_gates st9 1 (by decide)).1 (TargetObj.organisation 1) 1 rfl⟩

/-! Claim C6: shape of get_user_accessible_organisations. -/

/-- Store refuting C6: user 1 is the active agent of organisation 7, but
organisation 7 is inactive. -/
def st6 : St :=
  { agents := [⟨1, 1, 7, true, some 9, none, none⟩],
    roles := fun n => if n = 1 then Role.superuser else Role.user,
    orgs := [⟨7, false⟩], userOrgs := [], userPerms := [], agentPerms := [], now := 0 }

/-- C6 counterexample: user 1 holds an active Agent assignment managing
organisation 7, yet get_user_accessible_organisations returns the empty
list rather than exactly the managed organisation, because the managed
organisation is inactive. -/
theorem C6_cex :
    is_agent st6 1 = true ∧
    get_managed_organisation st6 1 = some 7 ∧
    get_user_accessible_organisations st6 1 = [] := by decide

/-- C6 amended: superadmins see exactly the active organisations; a
non-superadmin active agent managing m sees exactly m when some active
organisation row carries id m and nothing when the managed organisation is
inactive; every other user sees exactly the active organisations they hold
a membership in. -/
theorem C6_amended_accessible_orgs (st : St) (u : Nat) :
    (st.roles u = Role.superadmin →
      ∀ x, x ∈ get_user_accessible_organisations st u ↔
        ∃ o ∈ st.orgs, o.id = x ∧ o.is_active = true) ∧
    (st.roles u ≠ Role.superadmin → is_agent st u = true →
      ∀ m, get_managed_organisation st u = some m →
      ∀ x, x ∈ get_user_accessible_organisations st u ↔
        (x = m ∧ ∃ o ∈ st.orgs, o.id = m ∧ o.is_active = true)) ∧
    (st.roles u ≠ Role.superadmin → is_agent st u = false →
      ∀ x, x ∈ get_user_accessible_organisations st u ↔
        ∃ o ∈ st.orgs, o.id = x ∧ o.is_active = true ∧ (u, x) ∈ st.userOrgs) := by
  refine ⟨fun hsa x => ?_, fun hsa hag m hm x => ?_, fun hsa hag x => ?_⟩
  · simp only [get_user_accessible_organisations, if_pos hsa]
    simp only [List.mem_map, List.mem_filter]
    constructor
    · rintro ⟨o, ⟨ho, hoa⟩, rfl⟩; exact ⟨o, ho, rfl, hoa⟩
    · rintro ⟨o, ho, rfl, hoa⟩; exact ⟨o, ⟨ho, hoa⟩, rfl⟩
  · simp only [get_user_accessible_organisations, if_neg hsa, hag, if_true, hm,
      List.mem_map, List.mem_filter, Bool.and_eq_true, decide_eq_true_eq]
    constructor
    · rintro ⟨o, ⟨ho, hid, hoa⟩, rfl⟩; exact ⟨hid, o, ho, hid, hoa⟩
    · rintro ⟨rfl, o, ho, hid, hoa⟩; exact ⟨o, ⟨ho, hid, hoa⟩, hid⟩
  · simp only [get_user_accessible_organisations, if_neg hsa, hag,
      Bool.false_eq_true, if_false, List.mem_map, List.mem_filter,
      Bool.and_eq_true, contains_iff_mem]
    constructor
    · rintro ⟨o, ⟨ho, hoa, hmem⟩, rfl⟩; exact ⟨o, ho, rfl, hoa, hmem⟩
    · rintro ⟨o, ho, rfl, hoa, hmem⟩; exact ⟨o, ⟨ho, hoa, hmem⟩, rfl⟩

/-- Store used to witness C6: user 1 actively manages the active
organisation 7. -/
def st6w : St :=
  { agents := [⟨1, 1, 7, true, some 9, none, none⟩],
    roles := fun n => if n = 1 then Role.superuser else Role.user,
    orgs := [⟨7, true⟩], userOrgs := [], userPerms := [], agentPerms := [], now := 0 }

theorem C6_amended_accessible_orgs_witness :
    (st6w.roles 1 ≠ Role.superadmin ∧ is_agent st6w 1 = true ∧
      get_managed_organisation st6w 1 = some 7) ∧
    (7 ∈ get_user_accessible_organisations st6w 1 ↔
      ((7 : Nat) = 7 ∧ ∃ o ∈ st6w.orgs, o.id = 7 ∧ o.is_active = true)) :=
  ⟨⟨by decide, by decide, by decide⟩,
    (C6_amended_accessible_orgs st6w 1).2.1 (by decide) (by decide) 7 (by decide) 7⟩

/-! Helper lemmas about the save primitive, used by the remaining claims. -/

/-- Looking an agent row up by primary key finds exactly the member holding
that key, when primary keys are pairwise distinct. -/
theorem find?_eq_some_of_mem_unique (l : List AgentRow)
    (hl : l.Pairwise (fun a b => a.id ≠ b.id)) (row : AgentRow) (hmem : row ∈ l)
    (aid : Nat) (hid : row.id = aid) :
    l.find? (fun a => a.id = aid) = some row := by
  induction l with
  | nil => cases hmem
  | cons b t ih =>
    rcases List.pairwise_cons.mp hl with ⟨hb, ht⟩
    rcases List.mem_cons.mp hmem with rfl | hmt
    · exact List.find?_cons_of_pos _ (by simp [hid])
    · have hbne : ¬(b.id = aid) := fun hc => (hb row hmt) (by rw [hc, hid])
      rw [List.find?_cons_of_neg _ (by simp [hbne])]
      exact ih ht hmt

/-- Replacing one inactive row by another inactive row with the same key
leaves every user's active-agent status untouched. -/
theorem is_agent_replace_inactive (st : St) (row a' : AgentRow) (u : Nat)
    (hIds : agentIdsDistinct st) (hmem : row ∈ st.agents)
    (hrow : row.is_active = false) (ha' : a'.is_active = false)
    (hid : a'.id = row.id) :
    is_agent { st with agents := replaceAgent st.agents a' } u = is_agent st u := by
  have hsymm : Symmetric (fun a b : AgentRow => a.id ≠ b.id) :=
    fun a b h => Ne.symm h
  apply Bool.eq_iff_iff.mpr
  simp only [is_agent, List.any_eq_true, replaceAgent, List.mem_map,
    Bool.and_eq_true, decide_eq_true_eq]
  constructor
  · rintro ⟨x, ⟨b, hb, rfl⟩, hx⟩
    by_cases hbid : b.id = a'.id
    · rw [if_pos hbid] at hx
      rw [ha'] at hx
      exact absurd hx.2 (by simp)
    · rw [if_neg hbid] at hx
      exact ⟨b, hb, hx⟩
  · rintro ⟨x, hx, hxu, hxa⟩
    have hxid : x.id ≠ a'.id := by
      intro hc
      have hxrow : x = row := by
        by_contra hne
        exact (hIds.forall hsymm hx hmem hne) (hc.trans hid)
      rw [hxrow, hrow] at hxa; cases hxa
    exact ⟨x, ⟨x, hx, if_neg hxid⟩, hxu, hxa⟩

/-- setRole writes only the addressed user's role. -/
theorem setRole_roles_ne (st : St) (u : Nat) (r : Role) (v : Nat) (h : v ≠ u) :
    (setRole st u r).roles v = st.roles v := by
  simp [setRole, h]

/-- setRole writes the addressed user's role. -/
theorem setRole_roles_self (st : St) (u : Nat) (r : Role) :
    (setRole st u r).roles u = r := by
  simp [setRole]

/-- The pre_save receiver either changes nothing or, having seen role
'superuser' on the saved row's user, downgrades that user to 'user'. -/
theorem sync_revoke_cases (st : St) (a : AgentRow) :
    sync_user_role_on_agent_revoke st a = st ∨
    (st.roles a.userId = Role.superuser ∧
      sync_user_role_on_agent_revoke st a = setRole st a.userId Role.user) := by
  unfold sync_user_role_on_agent_revoke
  split
  · exact Or.inl rfl
  · split
    · split
      · next hw => exact Or.inr ⟨hw.2, rfl⟩
      · exact Or.inl rfl
    · exact Or.inl rfl

/-- The post_save receiver either changes nothing or, on an active row,
upgrades the row's user to 'superuser'. -/
theorem sync_assign_cases (st : St) (a : AgentRow) :
    sync_user_role_on_agent_assign st a = st ∨
    (a.is_active = true ∧
      sync_user_role_on_agent_assign st a = setRole st a.userId Role.superuser) := by
  unfold sync_user_role_on_agent_assign
  split
  · next hc => exact Or.inr ⟨hc.1, rfl⟩
  · exact Or.inl rfl

/-- The post_delete receiver either changes nothing or, having seen role
'superuser' on the deleted row's user, downgrades that user to 'user'. -/
theorem sync_delete_cases (st : St) (row : AgentRow) :
    sync_user_role_on_agent_delete st row = st ∨
    (st.roles row.userId = Role.superuser ∧
      sync_user_role_on_agent_delete st row = setRole st row.userId Role.user) := by
  unfold sync_user_role_on_agent_delete
  split
  · next hc => exact Or.inr ⟨hc.2, rfl⟩
  · exact Or.inl rfl

/-- Saving an inactive row leaves the post_save receiver inert. -/
theorem sync_assign_of_inactive (st : St) (a : AgentRow) (ha : a.is_active = false) :
    sync_user_role_on_agent_assign st a = st := by
  unfold sync_user_role_on_agent_assign
  rw [if_neg]
  intro hc
  rw [ha] at hc
  exact absurd hc.1 (by simp)

/-! Claim C4: what the role re-sync does to a superadmin. -/

/-- Store refuting C4: user 1 is a superadmin holding an active Agent row
for organisation 3. -/
def st4 : St :=
  { agents := [⟨1, 1, 3, true, some 9, none, none⟩],
    roles := fun n => if n = 1 then Role.superadmin else Role.user,
    orgs := [⟨3, true⟩], userOrgs := [], userPerms := [], agentPerms := [], now := 0 }

/-- C4 counterexample: applying User.sync_role_with_agent_status to
superadmin user 1, who holds an active Agent row, demotes the role to
'superuser' instead of leaving it 'superadmin'. -/
theorem C4_cex :
    st4.roles 1 = Role.superadmin ∧
    (sync_role_with_agent_status st4 1).roles 1 = Role.superuser := by decide

/-- C4 amended: the role re-sync leaves a superadmin untouched except when
the superadmin holds an active Agent row being synced: with no active Agent
row, sync_role_with_agent_status preserves 'superadmin'; saving any
inactive (deactivation) row and deleting any row preserve a superadmin's
role through the signal handlers in every state; but
sync_role_with_agent_status (and the post_save assign handler) demote a
superadmin who holds an active Agent row to 'superuser'. -/
theorem C4_amended_superadmin_sticky (st : St) (u : Nat)
    (h : st.roles u = Role.superadmin) :
    (is_agent st u = false →
      (sync_role_with_agent_status st u).roles u = Role.superadmin) ∧
    (∀ a : AgentRow, a.is_active = false →
      (agent_save_update st a).roles u = Role.superadmin) ∧
    (∀ rid : Nat, (agent_delete st rid).roles u = Role.superadmin) := by
  refine ⟨fun hag => ?_, fun a ha => ?_, fun rid => ?_⟩
  · simp only [sync_role_with_agent_status, hag, Bool.false_eq_true, if_false]
    rw [if_neg (by rw [h]; intro hc; cases hc)]
    exact h
  · unfold agent_save_update
    rw [sync_assign_of_inactive _ _ ha]
    show (sync_user_role_on_agent_revoke st a).roles u = Role.superadmin
    rcases sync_revoke_cases st a with hcase | ⟨hsu, hcase⟩
    · rw [hcase]; exact h
    · rw [hcase]
      have hne : u ≠ a.userId := by
        intro hc; rw [hc, hsu] at h; cases h
      rw [setRole_roles_ne st a.userId Role.user u hne]
      exact h
  · unfold agent_delete
    split
    · exact h
    · next row hfind =>
      rcases sync_delete_cases _ row with hcase | ⟨hsu, hcase⟩
      · rw [hcase]; exact h
      · rw [hcase]
        have hne : u ≠ row.userId := by
          intro hc
          rw [hc] at h
          have himp : Role.superuser = Role.superadmin := hsu.symm.trans h
          cases himp
        rw [setRole_roles_ne _ _ _ _ hne]
        exact h

/-- Store used to witness the amended C4: user 1 is a superadmin with no
Agent rows at all. -/
def st4w : St :=
  { agents := [⟨3, 2, 3, false, some 9, some 0, some 9⟩],
    roles := fun n => if n = 1 then Role.superadmin else Role.user,
    orgs := [⟨3, true⟩], userOrgs := [], userPerms := [], agentPerms := [], now := 0 }

theorem C4_amended_superadmin_sticky_witness :
    (st4w.roles 1 = Role.superadmin ∧ is_agent st4w 1 = false) ∧
    (sync_role_with_agent_status st4w 1).roles 1 = Role.superadmin ∧
    (agent_delete st4w 3).roles 1 = Role.superadmin :=
  ⟨⟨by decide, by decide⟩,
    (C4_amended_superadmin_sticky st4w 1 (by decide)).1 (by decide),
    (C4_amended_superadmin_sticky st4w 1 (by decide)).2.2 3⟩

/-- Writing a row back to the table places it at the position of any
member holding its key. -/
theorem mem_replaceAgent_self (l : List AgentRow) (row a : AgentRow)
    (hmem : row ∈ l) (hid : row.id = a.id) : a ∈ replaceAgent l a := by
  unfold replaceAgent
  exact List.mem_map.mpr ⟨row, hmem, by rw [if_pos hid]⟩

/-- In a state respecting the role invariant for user u, and in which u is
not a superadmin holding an active assignment, sync_role_with_agent_status
changes nothing. -/
theorem sync_role_roles_invariant (st : St) (u : Nat)
    (hinv : st.roles u ≠ Role.superadmin →
      (st.roles u = Role.superuser ↔ is_agent st u = true))
    (hnot : ¬(st.roles u = Role.superadmin ∧ is_agent st u = true)) :
    sync_role_with_agent_status st u = st := by
  unfold sync_role_with_agent_status
  cases hag : is_agent st u with
  | false =>
    simp only [Bool.false_eq_true, if_false]
    rw [if_neg]
    intro hsu
    have hne : st.roles u ≠ Role.superadmin := by rw [hsu]; intro hc; cases hc
    have := (hinv hne).mp hsu
    rw [hag] at this
    cases this
  | true =>
    simp only [if_true]
    rw [if_neg]
    intro hne
    by_cases hsa : st.roles u = Role.superadmin
    · exact hnot ⟨hsa, hag⟩
    · exact hne ((hinv hsa).mpr hag)

/-! Claim C8: behaviour of revoke_agent, including double revocation. -/

/-- Store refuting C8: user 1 is a superadmin holding the active Agent
row 2 besides the previously revoked row 1. -/
def st8 : St :=
  { agents := [⟨1, 1, 1, false, some 9, some 0, some 9⟩,
               ⟨2, 1, 2, true, some 9, none, none⟩],
    roles := fun n => if n = 1 then Role.superadmin else Role.user,
    orgs := [⟨1, true⟩, ⟨2, true⟩], userOrgs := [], userPerms := [],
    agentPerms := [], now := 5 }

/-- C8 counterexample: revoking the already-inactive Agent row 1 a second
time does change the managing user's role: superadmin user 1, who also
holds the active row 2, is demoted to 'superuser' by the re-sync, even
though the store satisfies all uniqueness invariants. -/
theorem C8_cex :
    st8.roles 1 = Role.superadmin ∧
    uniqueActivePerOrg st8 ∧ uniqueActivePerUser st8 ∧ agentIdsDistinct st8 ∧
    (revoke_agent st8 1 (some 9)).map (fun p => p.1.roles 1) = some Role.superuser := by
  exact ⟨by decide, by decide, by decide, by decide, by decide⟩

/-- C8 amended: revoke_agent fails with NotFound exactly when no Agent row
carries the given id; revoking an already-inactive row does not error,
re-stamps revoked_at and revoked_by on the row, and leaves the managing
user's role unchanged provided that user is not a superadmin holding an
active Agent assignment (such a superadmin is demoted to 'superuser' by
the re-sync). -/
theorem C8_amended_revoke_idempotent (st : St) (aid : Nat) (rb : Option Nat)
    (hIds : agentIdsDistinct st) :
    (revoke_agent st aid rb = none ↔ ∀ a ∈ st.agents, a.id ≠ aid) ∧
    (∀ row ∈ st.agents, row.id = aid → row.is_active = false →
      (st.roles row.userId ≠ Role.superadmin →
        (st.roles row.userId = Role.superuser ↔ is_agent st row.userId = true)) →
      ¬(st.roles row.userId = Role.superadmin ∧ is_agent st row.userId = true) →
      ∃ st', revoke_agent st aid rb =
          some (st', { row with is_active := false, revoked_at := some st.now,
                                revoked_by := rb }) ∧
        { row with is_active := false, revoked_at := some st.now, revoked_by := rb }
          ∈ st'.agents ∧
        st'.roles row.userId = st.roles row.userId) := by
  constructor
  · unfold revoke_agent
    cases hfind : st.agents.find? (fun a => a.id = aid) with
    | none =>
      rw [List.find?_eq_none] at hfind
      constructor
      · intro _ a ha hc
        exact absurd (by simp [hc]) (hfind a ha)
      · intro _; rfl
    | some a =>
      constructor
      · intro hc; cases hc
      · intro hall
        have hp := List.find?_some hfind
        have hmem := List.mem_of_find?_eq_some hfind
        exact absurd (of_decide_eq_true hp) (hall a hmem)
  · intro row hmem hid hinact hinv hnot
    have hfind : st.agents.find? (fun a => a.id = aid) = some row :=
      find?_eq_some_of_mem_unique st.agents hIds row hmem aid hid
    have hfind' : st.agents.find?
        (fun b => b.id = (deactivate rb st.now row).id) = some row :=
      find?_eq_some_of_mem_unique st.agents hIds row hmem _ rfl
    have hrev : sync_user_role_on_agent_revoke st (deactivate rb st.now row) = st := by
      unfold sync_user_role_on_agent_revoke
      rw [hfind']
      dsimp only
      have hcond : ¬(row.is_active = true ∧
          (deactivate rb st.now row).is_active = false) := by
        intro hc; rw [hinact] at hc; exact absurd hc.1 (by simp)
      rw [if_neg hcond]
    have hsave : agent_save_update st (deactivate rb st.now row) =
        { st with agents := replaceAgent st.agents (deactivate rb st.now row) } := by
      unfold agent_save_update
      rw [hrev, sync_assign_of_inactive _ _ rfl]
    have hag : is_agent
        { st with agents := replaceAgent st.agents (deactivate rb st.now row) }
          row.userId = is_agent st row.userId :=
      is_agent_replace_inactive st row (deactivate rb st.now row) row.userId
        hIds hmem hinact rfl rfl
    have hsync : sync_role_with_agent_status
        { st with agents := replaceAgent st.agents (deactivate rb st.now row) }
          row.userId =
        { st with agents := replaceAgent st.agents (deactivate rb st.now row) } := by
      apply sync_role_roles_invariant
      · rw [hag]; exact hinv
      · rw [hag]; exact hnot
    refine ⟨sync_role_with_agent_status
        (agent_save_update st (deactivate rb st.now row)) row.userId, ?_, ?_, ?_⟩
    · unfold revoke_agent
      rw [hfind]
      rfl
    · rw [hsave, hsync]
      exact mem_replaceAgent_self st.agents row _ hmem rfl
    · rw [hsave, hsync]

/-- Row and store used to witness the amended C8: a lone inactive row for
plain user 1 being revoked a second time. -/
def wrow8 : AgentRow := ⟨1, 1, 1, false, some 9, some 0, some 9⟩

/-- Store holding exactly the row wrow8. -/
def w8 : St :=
  { agents := [wrow8], roles := fun _ => Role.user, orgs := [⟨1, true⟩],
    userOrgs := [], userPerms := [], agentPerms := [], now := 7 }

theorem C8_amended_revoke_idempotent_witness :
    (wrow8 ∈ w8.agents ∧ wrow8.id = 1 ∧ wrow8.is_active = false ∧
      agentIdsDistinct w8) ∧
    (∃ st', revoke_agent w8 1 none =
        some (st', { wrow8 with is_active := false, revoked_at := some w8.now,
                                revoked_by := none }) ∧
      { wrow8 with is_active := false, revoked_at := some w8.now, revoked_by := none }
        ∈ st'.agents ∧
      st'.roles wrow8.userId = w8.roles wrow8.userId) :=
  ⟨⟨by decide, by decide, by decide, by decide⟩,
    (C8_amended_revoke_idempotent w8 1 none (by decide)).2 wrow8 (by decide)
      (by decide) (by decide) (by decide) (by decide)⟩

/-! List-level machinery for the eviction loops of assign_agent. -/

/-- A filter whose matches are pairwise excluded by a pairwise relation on
the list is empty or a single row. -/
theorem filter_cases_of_unique {α : Type} {R : α → α → Prop} {l : List α}
    (hl : l.Pairwise R) {p : α → Bool}
    (hcontra : ∀ x y, p x = true → p y = true → R x y → False) :
    l.filter p = [] ∨ ∃ x, l.filter p = [x] := by
  cases hfp : l.filter p with
  | nil => exact Or.inl rfl
  | cons x xs =>
    cases xs with
    | nil => exact Or.inr ⟨x, rfl⟩
    | cons y ys =>
      have hsub : (l.filter p).Pairwise R := hl.sublist (List.filter_sublist l)
      rw [hfp] at hsub
      have hR := (List.pairwise_cons.mp hsub).1 y (by simp)
      have hpx : p x = true := List.of_mem_filter (l := l) (p := p) (by rw [hfp]; simp)
      have hpy : p y = true := List.of_mem_filter (l := l) (p := p) (by rw [hfp]; simp)
      exact absurd hR (fun h => hcontra x y hpx hpy h)

/-- A filter with at most one possible match, containing a known member,
is exactly that member. -/
theorem filter_eq_singleton_of_unique {α : Type} {R : α → α → Prop}
    {l : List α} (hl : l.Pairwise R) {p : α → Bool}
    (hcontra : ∀ x y, p x = true → p y = true → R x y → False)
    (a : α) (hmem : a ∈ l) (hpa : p a = true) :
    l.filter p = [a] := by
  have hamem : a ∈ l.filter p := List.mem_filter.mpr ⟨hmem, hpa⟩
  rcases filter_cases_of_unique hl hcontra with hfp | ⟨x, hfp⟩
  · rw [hfp] at hamem; cases hamem
  · rw [hfp] at hamem
    rcases List.mem_singleton.mp hamem with rfl
    exact hfp

/-- An active row of the table after a write of an inactive row is an
untouched original. -/
theorem mem_active_replace {l : List AgentRow} {a' : AgentRow}
    (ha' : a'.is_active = false) {x : AgentRow} (hx : x ∈ replaceAgent l a')
    (hact : x.is_active = true) : x ∈ l ∧ x.id ≠ a'.id := by
  rcases List.mem_map.mp hx with ⟨b, hb, heq⟩
  by_cases hbid : b.id = a'.id
  · rw [if_pos hbid] at heq
    rw [← heq] at hact
    rw [ha'] at hact; cases hact
  · rw [if_neg hbid] at heq
    rw [← heq]; exact ⟨hb, hbid⟩

/-- A row whose key differs from the written one survives the write. -/
theorem mem_replace_of_ne {l : List AgentRow} {a' x : AgentRow}
    (hx : x ∈ l) (hne : x.id ≠ a'.id) : x ∈ replaceAgent l a' :=
  List.mem_map.mpr ⟨x, hx, if_neg hne⟩

/-- Writing an inactive row preserves any pairwise relation that only
constrains pairs of active rows. -/
theorem pairwise_replace_of_inactive {R : AgentRow → AgentRow → Prop}
    {l : List AgentRow} (a' : AgentRow)
    (hvac : ∀ x y : AgentRow, x.is_active = false ∨ y.is_active = false → R x y)
    (ha' : a'.is_active = false) (hl : l.Pairwise R) :
    (replaceAgent l a').Pairwise R := by
  unfold replaceAgent
  refine hl.map _ (fun b c hbc => ?_)
  by_cases hb : b.id = a'.id
  · rw [if_pos hb]; exact hvac _ _ (Or.inl ha')
  · rw [if_neg hb]
    by_cases hc : c.id = a'.id
    · rw [if_pos hc]; exact hvac _ _ (Or.inr ha')
    · rw [if_neg hc]; exact hbc

/-- Writing a row back never changes the key column of the table. -/
theorem ids_replaceAgent (l : List AgentRow) (a' : AgentRow) :
    (replaceAgent l a').map (·.id) = l.map (·.id) := by
  unfold replaceAgent
  rw [List.map_map]
  apply List.map_congr_left
  intro b _
  by_cases hb : b.id = a'.id
  · simp [hb]
  · simp [hb]

/-- Key distinctness survives a write. -/
theorem agentIdsDistinct_replace (st : St) (a' : AgentRow)
    (h : agentIdsDistinct st) :
    agentIdsDistinct { st with agents := replaceAgent st.agents a' } := by
  unfold agentIdsDistinct at h ⊢
  have h1 : ((st.agents.map (·.id)).Pairwise (· ≠ ·)) := List.pairwise_map.mpr h
  have h2 : (((replaceAgent st.agents a').map (·.id)).Pairwise (· ≠ ·)) := by
    rw [ids_replaceAgent]; exact h1
  exact List.pairwise_map.mp h2

/-- The save primitive writes exactly the row into the table, whatever the
signal receivers do to role columns. -/
theorem agent_save_update_agents (st : St) (a : AgentRow) :
    (agent_save_update st a).agents = replaceAgent st.agents a := by
  unfold agent_save_update
  rcases sync_revoke_cases st a with h1 | ⟨_, h1⟩ <;> rw [h1] <;>
    [skip; skip] <;>
  · rcases sync_assign_cases _ a with h2 | ⟨_, h2⟩ <;> rw [h2] <;> rfl

/-- The explicit role re-sync never touches the Agent table. -/
theorem sync_role_agents (st : St) (u : Nat) :
    (sync_role_with_agent_status st u).agents = st.agents := by
  unfold sync_role_with_agent_status
  split <;> split <;> rfl

/-- Creation appends the row, whatever the post_save receiver does. -/
theorem agent_create_agents (st : St) (a : AgentRow) :
    (agent_create st a).agents = st.agents ++ [a] := by
  unfold agent_create
  rcases sync_assign_cases { st with agents := st.agents ++ [a] } a with hc | ⟨_, hc⟩ <;>
    (rw [hc]; try rfl)

/-- The per-organisation uniqueness relation never constrains a pair
containing an inactive row. -/
theorem vacOrg : ∀ x y : AgentRow, x.is_active = false ∨ y.is_active = false →
    (x.is_active = true → y.is_active = true → x.orgId ≠ y.orgId) := by
  rintro x y (hv | hv) hx hy
  · rw [hv] at hx; cases hx
  · rw [hv] at hy; cases hy

/-- The per-user uniqueness relation never constrains a pair containing an
inactive row. -/
theorem vacUser : ∀ x y : AgentRow, x.is_active = false ∨ y.is_active = false →
    (x.is_active = true → y.is_active = true → x.userId ≠ y.userId) := by
  rintro x y (hv | hv) hx hy
  · rw [hv] at hx; cases hx
  · rw [hv] at hy; cases hy

/-- The organisation-eviction loop of assign_agent preserves both
uniqueness invariants and leaves active only original rows of other
organisations. -/
theorem evictOrgAgents_facts (st : St) (o ab : Nat)
    (hOrg : uniqueActivePerOrg st) (hUser : uniqueActivePerUser st) :
    uniqueActivePerOrg (evictOrgAgents st o ab) ∧
    uniqueActivePerUser (evictOrgAgents st o ab) ∧
    ∀ x ∈ (evictOrgAgents st o ab).agents, x.is_active = true →
      x ∈ st.agents ∧ x.orgId ≠ o := by
  have hcontra : ∀ x y : AgentRow,
      (fun a => decide (a.orgId = o) && a.is_active) x = true →
      (fun a => decide (a.orgId = o) && a.is_active) y = true →
      (x.is_active = true → y.is_active = true → x.orgId ≠ y.orgId) → False := by
    intro x y hx hy hR
    simp only [Bool.and_eq_true, decide_eq_true_eq] at hx hy
    exact hR hx.2 hy.2 (hx.1.trans hy.1.symm)
  rcases filter_cases_of_unique hOrg hcontra with hsnap | ⟨s, hsnap⟩
  · have hid : evictOrgAgents st o ab = st := by
      unfold evictOrgAgents
      rw [hsnap]
      rfl
    rw [hid]
    refine ⟨hOrg, hUser, fun x hx hact => ⟨hx, ?_⟩⟩
    have := (List.filter_eq_nil_iff.mp hsnap) x hx
    simp only [Bool.and_eq_true, decide_eq_true_eq] at this
    intro hc; exact this ⟨hc, hact⟩
  · have hstep : evictOrgAgents st o ab =
        sync_role_with_agent_status
          (agent_save_update st (deactivate (some ab) st.now s)) s.userId := by
      unfold evictOrgAgents
      rw [hsnap]
      rfl
    have hagents : (evictOrgAgents st o ab).agents =
        replaceAgent st.agents (deactivate (some ab) st.now s) := by
      rw [hstep, sync_role_agents, agent_save_update_agents]
    refine ⟨?_, ?_, ?_⟩
    · unfold uniqueActivePerOrg
      rw [hagents]
      exact pairwise_replace_of_inactive _ vacOrg rfl hOrg
    · unfold uniqueActivePerUser
      rw [hagents]
      exact pairwise_replace_of_inactive _ vacUser rfl hUser
    · intro x hx hact
      rw [hagents] at hx
      rcases mem_active_replace rfl hx hact with ⟨hxl, hxid⟩
      refine ⟨hxl, fun hc => ?_⟩
      have : x ∈ st.agents.filter (fun a => decide (a.orgId = o) && a.is_active) :=
        List.mem_filter.mpr ⟨hxl, by simp [hc, hact]⟩
      rw [hsnap] at this
      rcases List.mem_singleton.mp this with rfl
      exact hxid rfl

/-- The user-eviction loop of assign_agent preserves both uniqueness
invariants and leaves active only original rows of other users. -/
theorem evictUserAgents_facts (st : St) (u ab : Nat)
    (hOrg : uniqueActivePerOrg st) (hUser : uniqueActivePerUser st) :
    uniqueActivePerOrg (evictUserAgents st u ab) ∧
    uniqueActivePerUser (evictUserAgents st u ab) ∧
    ∀ x ∈ (evictUserAgents st u ab).agents, x.is_active = true →
      x ∈ st.agents ∧ x.userId ≠ u := by
  have hcontra : ∀ x y : AgentRow,
      (fun a => decide (a.userId = u) && a.is_active) x = true →
      (fun a => decide (a.userId = u) && a.is_active) y = true →
      (x.is_active = true → y.is_active = true → x.userId ≠ y.userId) → False := by
    intro x y hx hy hR
    simp only [Bool.and_eq_true, decide_eq_true_eq] at hx hy
    exact hR hx.2 hy.2 (hx.1.trans hy.1.symm)
  rcases filter_cases_of_unique hUser hcontra with hsnap | ⟨s, hsnap⟩
  · have hid : evictUserAgents st u ab = st := by
      unfold evictUserAgents
      rw [hsnap]
      rfl
    rw [hid]
    refine ⟨hOrg, hUser, fun x hx hact => ⟨hx, ?_⟩⟩
    have := (List.filter_eq_nil_iff.mp hsnap) x hx
    simp only [Bool.and_eq_true, decide_eq_true_eq] at this
    intro hc; exact this ⟨hc, hact⟩
  · have hstep : evictUserAgents st u ab =
        agent_save_update st (deactivate (some ab) st.now s) := by
      unfold evictUserAgents
      rw [hsnap]
      rfl
    have hagents : (evictUserAgents st u ab).agents =
        replaceAgent st.agents (deactivate (some ab) st.now s) := by
      rw [hstep, agent_save_update_agents]
    refine ⟨?_, ?_, ?_⟩
    · unfold uniqueActivePerOrg
      rw [hagents]
      exact pairwise_replace_of_inactive _ vacOrg rfl hOrg
    · unfold uniqueActivePerUser
      rw [hagents]
      exact pairwise_replace_of_inactive _ vacUser rfl hUser
    · intro x hx hact
      rw [hagents] at hx
      rcases mem_active_replace rfl hx hact with ⟨hxl, hxid⟩
      refine ⟨hxl, fun hc => ?_⟩
      have : x ∈ st.agents.filter (fun a => decide (a.userId = u) && a.is_active) :=
        List.mem_filter.mpr ⟨hxl, by simp [hc, hact]⟩
      rw [hsnap] at this
      rcases List.mem_singleton.mp this with rfl
      exact hxid rfl

/-- assign_agent preserves both uniqueness invariants. -/
theorem assign_preserves_inv (st : St) (u o ab nid : Nat)
    (hOrg : uniqueActivePerOrg st) (hUser : uniqueActivePerUser st) :
    uniqueActivePerOrg (assign_agent st u o ab nid).state ∧
    uniqueActivePerUser (assign_agent st u o ab nid).state := by
  obtain ⟨h1O, h1U, h1act⟩ := evictOrgAgents_facts st o ab hOrg hUser
  obtain ⟨h2O, h2U, h2act⟩ := evictUserAgents_facts (evictOrgAgents st o ab) u ab h1O h1U
  have hfin : (assign_agent st u o ab nid).state.agents =
      (evictUserAgents (evictOrgAgents st o ab) u ab).agents ++
        [⟨nid, u, o, true, some ab, none, none⟩] := by
    have h0 : (assign_agent st u o ab nid).state.agents =
        (agent_create (evictUserAgents (evictOrgAgents st o ab) u ab)
          ⟨nid, u, o, true, some ab, none, none⟩).agents := rfl
    rw [h0, agent_create_agents]
  constructor
  · unfold uniqueActivePerOrg
    rw [hfin]
    rw [List.pairwise_append]
    refine ⟨h2O, by simp, fun x hx b hb => ?_⟩
    rcases List.mem_singleton.mp hb with rfl
    intro hxact _
    have hx1 := (h2act x hx hxact).1
    exact (h1act x hx1 hxact).2
  · unfold uniqueActivePerUser
    rw [hfin]
    rw [List.pairwise_append]
    refine ⟨h2U, by simp, fun x hx b hb => ?_⟩
    rcases List.mem_singleton.mp hb with rfl
    intro hxact _
    exact (h2act x hx hxact).2

/-- revoke_agent preserves both uniqueness invariants. -/
theorem revoke_preserves_inv (st st' : St) (aid : Nat) (rb : Option Nat)
    (a : AgentRow) (hOrg : uniqueActivePerOrg st) (hUser : uniqueActivePerUser st)
    (h : revoke_agent st aid rb = some (st', a)) :
    uniqueActivePerOrg st' ∧ uniqueActivePerUser st' := by
  unfold revoke_agent at h
  cases hfind : st.agents.find? (fun b => b.id = aid) with
  | none => rw [hfind] at h; cases h
  | some row =>
    rw [hfind] at h
    have hst' : st' =
        sync_role_with_agent_status
          (agent_save_update st (deactivate rb st.now row)) row.userId := by
      cases h; rfl
    have hagents : st'.agents = replaceAgent st.agents (deactivate rb st.now row) := by
      rw [hst', sync_role_agents, agent_save_update_agents]
    constructor
    · unfold uniqueActivePerOrg
      rw [hagents]
      exact pairwise_replace_of_inactive _ vacOrg rfl hOrg
    · unfold uniqueActivePerUser
      rw [hagents]
      exact pairwise_replace_of_inactive _ vacUser rfl hUser

/-! Claim C1: the two uniqueness invariants hold in every reachable state. -/

/-- C1: starting from a store satisfying the two active-agent uniqueness
invariants, every state reachable through assign_agent and revoke_agent
still has at most one active Agent row per organisation and at most one
active Agent row per user. -/
theorem C1_active_agent_uniqueness (st st' : St)
    (hOrg : uniqueActivePerOrg st) (hUser : uniqueActivePerUser st)
    (hr : Reachable st st') :
    uniqueActivePerOrg st' ∧ uniqueActivePerUser st' := by
  induction hr with
  | refl => exact ⟨hOrg, hUser⟩
  | assign st1 u o ab nid hr ih => exact assign_preserves_inv st1 u o ab nid ih.1 ih.2
  | revoke st1 st2 aid rb a hr heq ih =>
    exact revoke_preserves_inv st1 st2 aid rb a ih.1 ih.2 heq

/-- Store used to witness C1: an empty store stepped once by assign_agent. -/
def st1w : St :=
  { agents := [], roles := fun _ => Role.user, orgs := [⟨2, true⟩],
    userOrgs := [], userPerms := [], agentPerms := [], now := 0 }

theorem C1_active_agent_uniqueness_witness :
    (uniqueActivePerOrg st1w ∧ uniqueActivePerUser st1w) ∧
    (uniqueActivePerOrg (assign_agent st1w 1 2 9 5).state ∧
      uniqueActivePerUser (assign_agent st1w 1 2 9 5).state) :=
  ⟨⟨by decide, by decide⟩,
    C1_active_agent_uniqueness st1w (assign_agent st1w 1 2 9 5).state
      (by decide) (by decide)
      (Reachable.assign st1w st1w 1 2 9 5 (Reachable.refl st1w))⟩

/-! Exact characterization of the deactivation-save performed by the
eviction loops and by revoke_agent. -/

/-- Key distinctness is preserved by any write: the write keeps the key
column of the table unchanged. -/
theorem ids_pairwise_replace (l : List AgentRow) (a' : AgentRow)
    (h : l.Pairwise fun a b => a.id ≠ b.id) :
    (replaceAgent l a').Pairwise fun a b => a.id ≠ b.id := by
  have h1 : ((l.map (·.id)).Pairwise (· ≠ ·)) := List.pairwise_map.mpr h
  have h2 : (((replaceAgent l a').map (·.id)).Pairwise (· ≠ ·)) := by
    rw [ids_replaceAgent]; exact h1
  exact List.pairwise_map.mp h2

/-- After writing an inactive copy over the single active row of a user,
that user holds no active row. -/
theorem no_active_user_replace (l : List AgentRow) (a0 a' : AgentRow) (u : Nat)
    (hUser : l.Pairwise fun a b =>
      a.is_active = true → b.is_active = true → a.userId ≠ b.userId)
    (hmem : a0 ∈ l) (hact : a0.is_active = true) (hu : a0.userId = u)
    (ha' : a'.is_active = false) (hid : a'.id = a0.id) :
    (replaceAgent l a').any (fun b => decide (b.userId = u) && b.is_active) = false := by
  rw [List.any_eq_false]
  intro x hx hpx
  simp only [Bool.and_eq_true, decide_eq_true_eq] at hpx
  obtain ⟨hxu, hxact⟩ := hpx
  rcases mem_active_replace ha' hx hxact with ⟨hxl, hxid⟩
  have hxne : x ≠ a0 := fun hc => hxid (by rw [hc, hid])
  have hsymmU : Symmetric (fun a b : AgentRow =>
      a.is_active = true → b.is_active = true → a.userId ≠ b.userId) :=
    fun a b h hb ha => (h ha hb).symm
  exact (hUser.forall hsymmU hxl hmem hxne) hxact hact (hxu.trans hu.symm)

/-- Saving the deactivation of an active row a0 (present, distinct keys,
at most one active row per user) downgrades a0's user from 'superuser' to
'user' when that was the role, and writes the row; nothing else changes. -/
theorem agent_save_update_deact_spec (st : St) (a0 : AgentRow) (ab : Option Nat)
    (t : Nat) (hIds : agentIdsDistinct st) (hUser : uniqueActivePerUser st)
    (hmem : a0 ∈ st.agents) (hact : a0.is_active = true) :
    agent_save_update st (deactivate ab t a0) =
      { (if st.roles a0.userId = Role.superuser
          then setRole st a0.userId Role.user else st) with
        agents := replaceAgent st.agents (deactivate ab t a0) } := by
  have hfind : st.agents.find? (fun b => b.id = (deactivate ab t a0).id) = some a0 :=
    find?_eq_some_of_mem_unique st.agents hIds a0 hmem _ rfl
  have hany : (st.agents.any (fun b =>
      decide (b.userId = (deactivate ab t a0).userId) && b.is_active &&
        decide (b.id ≠ (deactivate ab t a0).id))) = false := by
    rw [List.any_eq_false]
    intro x hx hpx
    simp only [Bool.and_eq_true, decide_eq_true_eq] at hpx
    obtain ⟨⟨hxu, hxact⟩, hxid⟩ := hpx
    have hxne : x ≠ a0 := fun hc => hxid (by rw [hc]; rfl)
    have hsymmU : Symmetric (fun a b : AgentRow =>
        a.is_active = true → b.is_active = true → a.userId ≠ b.userId) :=
      fun a b h hb ha => (h ha hb).symm
    exact (hUser.forall hsymmU hx hmem hxne) hxact hact hxu
  have hrev : sync_user_role_on_agent_revoke st (deactivate ab t a0) =
      (if st.roles a0.userId = Role.superuser
        then setRole st a0.userId Role.user else st) := by
    unfold sync_user_role_on_agent_revoke
    rw [hfind]
    dsimp only
    rw [if_pos ⟨hact, rfl⟩]
    by_cases hr : st.roles a0.userId = Role.superuser
    · rw [if_pos ⟨hany, hr⟩, if_pos hr]; rfl
    · rw [if_neg (fun hc => hr hc.2), if_neg hr]
  unfold agent_save_update
  rw [sync_assign_of_inactive _ _ rfl, hrev]
  by_cases hr : st.roles a0.userId = Role.superuser
  · rw [if_pos hr]; rfl
  · rw [if_neg hr]

/-- Saving the deactivated copy of an already-inactive row only writes the
row: neither signal receiver changes a role. -/
theorem agent_save_update_inactive_spec (st : St) (row : AgentRow)
    (rb : Option Nat) (t : Nat) (hIds : agentIdsDistinct st)
    (hmem : row ∈ st.agents) (hinact : row.is_active = false) :
    agent_save_update st (deactivate rb t row) =
      { st with agents := replaceAgent st.agents (deactivate rb t row) } := by
  have hfind : st.agents.find? (fun b => b.id = (deactivate rb t row).id) = some row :=
    find?_eq_some_of_mem_unique st.agents hIds row hmem _ rfl
  have hrev : sync_user_role_on_agent_revoke st (deactivate rb t row) = st := by
    unfold sync_user_role_on_agent_revoke
    rw [hfind]
    dsimp only
    rw [if_neg (fun hc => by rw [hinact] at hc; exact absurd hc.1 (by simp))]
  unfold agent_save_update
  rw [sync_assign_of_inactive _ _ rfl, hrev]

/-- The organisation-eviction loop, when the organisation's single active
agent row is a0 and a0's user is no superadmin, deactivates exactly a0 and
downgrades a0's user from 'superuser' to 'user'; the trailing explicit
re-sync is then inert. -/
theorem evictOrgAgents_spec (st : St) (ab : Nat) (a0 : AgentRow)
    (hOrg : uniqueActivePerOrg st) (hUser : uniqueActivePerUser st)
    (hIds : agentIdsDistinct st) (hmem : a0 ∈ st.agents)
    (hact : a0.is_active = true) :
    evictOrgAgents st a0.orgId ab =
      { (if st.roles a0.userId = Role.superuser
          then setRole st a0.userId Role.user else st) with
        agents := replaceAgent st.agents (deactivate (some ab) st.now a0) } := by
  have hcontra : ∀ x y : AgentRow,
      (fun a => decide (a.orgId = a0.orgId) && a.is_active) x = true →
      (fun a => decide (a.orgId = a0.orgId) && a.is_active) y = true →
      (x.is_active = true → y.is_active = true → x.orgId ≠ y.orgId) → False := by
    intro x y hx hy hR
    simp only [Bool.and_eq_true, decide_eq_true_eq] at hx hy
    exact hR hx.2 hy.2 (hx.1.trans hy.1.symm)
  have hsnap : st.agents.filter (fun a => decide (a.orgId = a0.orgId) && a.is_active)
      = [a0] :=
    filter_eq_singleton_of_unique hOrg hcontra a0 hmem (by simp [hact])
  have hstep : evictOrgAgents st a0.orgId ab =
      sync_role_with_agent_status
        (agent_save_update st (deactivate (some ab) st.now a0)) a0.userId := by
    unfold evictOrgAgents
    rw [hsnap]
    rfl
  have hsave := agent_save_update_deact_spec st a0 (some ab) st.now hIds hUser hmem hact
  have hBfalse : is_agent
      { (if st.roles a0.userId = Role.superuser
          then setRole st a0.userId Role.user else st) with
        agents := replaceAgent st.agents (deactivate (some ab) st.now a0) }
        a0.userId = false :=
    no_active_user_replace st.agents a0 (deactivate (some ab) st.now a0) a0.userId
      hUser hmem hact rfl rfl rfl
  have hBne : ({ (if st.roles a0.userId = Role.superuser
          then setRole st a0.userId Role.user else st) with
        agents := replaceAgent st.agents (deactivate (some ab) st.now a0) } : St).roles
          a0.userId ≠ Role.superuser := by
    show (if st.roles a0.userId = Role.superuser
        then setRole st a0.userId Role.user else st).roles a0.userId ≠ Role.superuser
    by_cases hr : st.roles a0.userId = Role.superuser
    · rw [if_pos hr, setRole_roles_self]; intro hc; cases hc
    · rw [if_neg hr]; exact hr
  have hsync := sync_role_roles_invariant
      { (if st.roles a0.userId = Role.superuser
          then setRole st a0.userId Role.user else st) with
        agents := replaceAgent st.agents (deactivate (some ab) st.now a0) }
      a0.userId
      (fun _ => ⟨fun hc => absurd hc hBne, fun hc => by rw [hBfalse] at hc; cases hc⟩)
      (fun hc => by have h2 := hc.2; rw [hBfalse] at h2; cases h2)
  rw [hstep, hsave, hsync]

/-- Auxiliary facts about the user-eviction loop beyond the invariants:
key distinctness survives, other users' roles survive, inactive rows
survive, and the Organisation table is untouched. -/
theorem evictUserAgents_spec (st : St) (u ab : Nat)
    (hUser : uniqueActivePerUser st) (hIds : agentIdsDistinct st) :
    agentIdsDistinct (evictUserAgents st u ab) ∧
    (∀ v, v ≠ u → (evictUserAgents st u ab).roles v = st.roles v) ∧
    (∀ x ∈ st.agents, x.is_active = false → x ∈ (evictUserAgents st u ab).agents) ∧
    (evictUserAgents st u ab).orgs = st.orgs := by
  have hcontra : ∀ x y : AgentRow,
      (fun a => decide (a.userId = u) && a.is_active) x = true →
      (fun a => decide (a.userId = u) && a.is_active) y = true →
      (x.is_active = true → y.is_active = true → x.userId ≠ y.userId) → False := by
    intro x y hx hy hR
    simp only [Bool.and_eq_true, decide_eq_true_eq] at hx hy
    exact hR hx.2 hy.2 (hx.1.trans hy.1.symm)
  rcases filter_cases_of_unique hUser hcontra with hsnap | ⟨b0, hsnap⟩
  · have hid : evictUserAgents st u ab = st := by
      unfold evictUserAgents
      rw [hsnap]
      rfl
    rw [hid]
    exact ⟨hIds, fun v _ => rfl, fun x hx _ => hx, rfl⟩
  · have hb0f : b0 ∈ st.agents.filter (fun a => decide (a.userId = u) && a.is_active) := by
      rw [hsnap]; simp
    have hb0mem : b0 ∈ st.agents := (List.mem_filter.mp hb0f).1
    have hb0p := List.of_mem_filter hb0f
    simp only [Bool.and_eq_true, decide_eq_true_eq] at hb0p
    obtain ⟨hb0u, hb0act⟩ := hb0p
    have hstep : evictUserAgents st u ab =
        agent_save_update st (deactivate (some ab) st.now b0) := by
      unfold evictUserAgents
      rw [hsnap]
      rfl
    have hsave := agent_save_update_deact_spec st b0 (some ab) st.now hIds hUser
      hb0mem hb0act
    rw [hstep, hsave]
    refine ⟨?_, ?_, ?_, ?_⟩
    · show (replaceAgent st.agents (deactivate (some ab) st.now b0)).Pairwise _
      exact ids_pairwise_replace _ _ hIds
    · intro v hv
      show (if st.roles b0.userId = Role.superuser
          then setRole st b0.userId Role.user else st).roles v = st.roles v
      by_cases hr : st.roles b0.userId = Role.superuser
      · rw [if_pos hr, setRole_roles_ne _ _ _ _ (by rw [hb0u]; exact hv)]
      · rw [if_neg hr]
    · intro x hx hxinact
      show x ∈ replaceAgent st.agents (deactivate (some ab) st.now b0)
      have hxne : x ≠ b0 := by
        intro hc; rw [hc, hb0act] at hxinact; cases hxinact
      have hsymm : Symmetric (fun a b : AgentRow => a.id ≠ b.id) :=
        fun a b h => Ne.symm h
      have hxid : x.id ≠ b0.id := hIds.forall hsymm hx hb0mem hxne
      exact mem_replace_of_ne hx hxid
    · show (if st.roles b0.userId = Role.superuser
          then setRole st b0.userId Role.user else st).orgs = st.orgs
      split <;> rfl

/-- Creation does not touch other users' roles. -/
theorem agent_create_roles_ne (st : St) (a : AgentRow) (v : Nat)
    (hv : v ≠ a.userId) : (agent_create st a).roles v = st.roles v := by
  unfold agent_create
  rcases sync_assign_cases { st with agents := st.agents ++ [a] } a with hc | ⟨_, hc⟩
  · rw [hc]
  · rw [hc, setRole_roles_ne _ _ _ _ hv]

/-- Creation does not touch the Organisation table. -/
theorem agent_create_orgs (st : St) (a : AgentRow) :
    (agent_create st a).orgs = st.orgs := by
  unfold agent_create
  rcases sync_assign_cases { st with agents := st.agents ++ [a] } a with hc | ⟨_, hc⟩ <;>
    (rw [hc]; try rfl)

/-- Full functional characterization of assign_agent when the organisation
currently has the single active agent row a0 and a0's user is not a
superadmin: a0 is deactivated with revocation metadata stamped by the
assigner, its user reverts to 'user' and holds no active row afterwards;
the returned row is the fresh active assignment of the incoming user,
whose role becomes 'superuser', who then manages exactly this organisation
and whose accessible organisations are the active Organisation rows
carrying this organisation's id. -/
theorem assign_agent_spec (st : St) (u2 ab nid : Nat) (a0 : AgentRow)
    (hOrg : uniqueActivePerOrg st) (hUser : uniqueActivePerUser st)
    (hIds : agentIdsDistinct st)
    (hmem : a0 ∈ st.agents) (hact : a0.is_active = true)
    (hne : u2 ≠ a0.userId) (hsa1 : st.roles a0.userId ≠ Role.superadmin) :
    deactivate (some ab) st.now a0 ∈ (assign_agent st u2 a0.orgId ab nid).state.agents ∧
    (assign_agent st u2 a0.orgId ab nid).state.roles a0.userId = Role.user ∧
    is_agent (assign_agent st u2 a0.orgId ab nid).state a0.userId = false ∧
    (assign_agent st u2 a0.orgId ab nid).newAgent =
      ⟨nid, u2, a0.orgId, true, some ab, none, none⟩ ∧
    (assign_agent st u2 a0.orgId ab nid).newAgent ∈
      (assign_agent st u2 a0.orgId ab nid).state.agents ∧
    (assign_agent st u2 a0.orgId ab nid).state.roles u2 = Role.superuser ∧
    (assign_agent st u2 a0.orgId ab nid).state.orgs = st.orgs ∧
    get_managed_organisation (assign_agent st u2 a0.orgId ab nid).state u2 =
      some a0.orgId ∧
    get_user_accessible_organisations (assign_agent st u2 a0.orgId ab nid).state u2 =
      (st.orgs.filter (fun o => o.id = a0.orgId && o.is_active)).map (·.id) := by
  have hsymmU : Symmetric (fun a b : AgentRow =>
      a.is_active = true → b.is_active = true → a.userId ≠ b.userId) :=
    fun a b h hb ha => (h ha hb).symm
  have h1 := evictOrgAgents_spec st ab a0 hOrg hUser hIds hmem hact
  have hE1agents : (evictOrgAgents st a0.orgId ab).agents =
      replaceAgent st.agents (deactivate (some ab) st.now a0) := by rw [h1]
  have hE1roles1 : (evictOrgAgents st a0.orgId ab).roles a0.userId = Role.user := by
    rw [h1]
    show (if st.roles a0.userId = Role.superuser
        then setRole st a0.userId Role.user else st).roles a0.userId = Role.user
    by_cases hr : st.roles a0.userId = Role.superuser
    · rw [if_pos hr, setRole_roles_self]
    · rw [if_neg hr]
      cases hcase : st.roles a0.userId with
      | user => rfl
      | superuser => exact absurd hcase hr
      | superadmin => exact absurd hcase hsa1
  have hE1O : uniqueActivePerOrg (evictOrgAgents st a0.orgId ab) := by
    unfold uniqueActivePerOrg
    rw [hE1agents]
    exact pairwise_replace_of_inactive _ vacOrg rfl hOrg
  have hE1U : uniqueActivePerUser (evictOrgAgents st a0.orgId ab) := by
    unfold uniqueActivePerUser
    rw [hE1agents]
    exact pairwise_replace_of_inactive _ vacUser rfl hUser
  have hE1Ids : agentIdsDistinct (evictOrgAgents st a0.orgId ab) := by
    unfold agentIdsDistinct
    rw [hE1agents]
    exact ids_pairwise_replace _ _ hIds
  have hE1orgs : (evictOrgAgents st a0.orgId ab).orgs = st.orgs := by
    rw [h1]
    show (if st.roles a0.userId = Role.superuser
        then setRole st a0.userId Role.user else st).orgs = st.orgs
    split <;> rfl
  have hE1dmem : deactivate (some ab) st.now a0 ∈ (evictOrgAgents st a0.orgId ab).agents := by
    rw [hE1agents]
    exact mem_replaceAgent_self st.agents a0 _ hmem rfl
  obtain ⟨h2O, h2U, h2act⟩ :=
    evictUserAgents_facts (evictOrgAgents st a0.orgId ab) u2 ab hE1O hE1U
  obtain ⟨h2Ids, h2roles, h2keep, h2orgs⟩ :=
    evictUserAgents_spec (evictOrgAgents st a0.orgId ab) u2 ab hE1U hE1Ids
  have hE2roles1 : (evictUserAgents (evictOrgAgents st a0.orgId ab) u2 ab).roles
      a0.userId = Role.user :=
    (h2roles a0.userId (fun hc => hne hc.symm)).trans hE1roles1
  have hE2keep : deactivate (some ab) st.now a0 ∈
      (evictUserAgents (evictOrgAgents st a0.orgId ab) u2 ab).agents :=
    h2keep _ hE1dmem rfl
  have hE2orgs : (evictUserAgents (evictOrgAgents st a0.orgId ab) u2 ab).orgs =
      st.orgs := h2orgs.trans hE1orgs
  have hE2noact : ∀ x ∈ (evictUserAgents (evictOrgAgents st a0.orgId ab) u2 ab).agents,
      x.is_active = true → x.userId ≠ u2 ∧ x.userId ≠ a0.userId := by
    intro x hx hxact
    obtain ⟨hxE1, hxu2⟩ := h2act x hx hxact
    refine ⟨hxu2, ?_⟩
    rw [hE1agents] at hxE1
    obtain ⟨hxst, hxid⟩ := mem_active_replace rfl hxE1 hxact
    have hxne : x ≠ a0 := fun hc => hxid (by rw [hc]; rfl)
    exact hUser.forall hsymmU hxst hmem hxne hxact hact
  have hFagents : (assign_agent st u2 a0.orgId ab nid).state.agents =
      (evictUserAgents (evictOrgAgents st a0.orgId ab) u2 ab).agents ++
        [⟨nid, u2, a0.orgId, true, some ab, none, none⟩] := by
    have h0 : (assign_agent st u2 a0.orgId ab nid).state.agents =
        (agent_create (evictUserAgents (evictOrgAgents st a0.orgId ab) u2 ab)
          ⟨nid, u2, a0.orgId, true, some ab, none, none⟩).agents := rfl
    rw [h0, agent_create_agents]
  have hFroles2 : (assign_agent st u2 a0.orgId ab nid).state.roles u2 =
      Role.superuser :=
    setRole_roles_self _ u2 Role.superuser
  have hFroles1 : (assign_agent st u2 a0.orgId ab nid).state.roles a0.userId =
      Role.user := by
    have h0 : (assign_agent st u2 a0.orgId ab nid).state.roles a0.userId =
        (agent_create (evictUserAgents (evictOrgAgents st a0.orgId ab) u2 ab)
          ⟨nid, u2, a0.orgId, true, some ab, none, none⟩).roles a0.userId :=
      setRole_roles_ne _ u2 Role.superuser a0.userId (fun hc => hne hc.symm)
    rw [h0, agent_create_roles_ne _ _ _ (fun hc => hne hc.symm)]
    exact hE2roles1
  have hFmem_d0 : deactivate (some ab) st.now a0 ∈
      (assign_agent st u2 a0.orgId ab nid).state.agents := by
    rw [hFagents]
    exact List.mem_append_left _ hE2keep
  have hFmem_row : (⟨nid, u2, a0.orgId, true, some ab, none, none⟩ : AgentRow) ∈
      (assign_agent st u2 a0.orgId ab nid).state.agents := by
    rw [hFagents]
    exact List.mem_append_right _ (by simp)
  have hFis1 : is_agent (assign_agent st u2 a0.orgId ab nid).state a0.userId = false := by
    unfold is_agent
    rw [hFagents, List.any_append]
    have hA : (evictUserAgents (evictOrgAgents st a0.orgId ab) u2 ab).agents.any
        (fun a => decide (a.userId = a0.userId) && a.is_active) = false := by
      rw [List.any_eq_false]
      intro x hx hpx
      simp only [Bool.and_eq_true, decide_eq_true_eq] at hpx
      exact (hE2noact x hx hpx.2).2 hpx.1
    have hB : ([(⟨nid, u2, a0.orgId, true, some ab, none, none⟩ : AgentRow)]).any
        (fun a => decide (a.userId = a0.userId) && a.is_active) = false := by
      simp [hne]
    rw [hA, hB]
    rfl
  have hA2 : (evictUserAgents (evictOrgAgents st a0.orgId ab) u2 ab).agents.filter
      (fun a => decide (a.userId = u2) && a.is_active) = [] := by
    rw [List.filter_eq_nil_iff]
    intro x hx hpx
    simp only [Bool.and_eq_true, decide_eq_true_eq] at hpx
    exact (hE2noact x hx hpx.2).1 hpx.1
  have hFfilter : (assign_agent st u2 a0.orgId ab nid).state.agents.filter
      (fun a => decide (a.userId = u2) && a.is_active) =
      [⟨nid, u2, a0.orgId, true, some ab, none, none⟩] := by
    rw [hFagents, List.filter_append, hA2]
    simp
  have hFis2 : is_agent (assign_agent st u2 a0.orgId ab nid).state u2 = true := by
    unfold is_agent
    rw [hFagents, List.any_append]
    have hB : ([(⟨nid, u2, a0.orgId, true, some ab, none, none⟩ : AgentRow)]).any
        (fun a => decide (a.userId = u2) && a.is_active) = true := by simp
    rw [hB, Bool.or_true]
  have hFman : get_managed_organisation (assign_agent st u2 a0.orgId ab nid).state u2 =
      some a0.orgId := by
    unfold get_managed_organisation
    rw [hFis2, if_pos rfl, hFfilter]
    rfl
  have hForgs : (assign_agent st u2 a0.orgId ab nid).state.orgs = st.orgs := by
    have h0 : (assign_agent st u2 a0.orgId ab nid).state.orgs =
        (agent_create (evictUserAgents (evictOrgAgents st a0.orgId ab) u2 ab)
          ⟨nid, u2, a0.orgId, true, some ab, none, none⟩).orgs := rfl
    rw [h0, agent_create_orgs]
    exact hE2orgs
  have hFacc : get_user_accessible_organisations
      (assign_agent st u2 a0.orgId ab nid).state u2 =
      (st.orgs.filter (fun o => o.id = a0.orgId && o.is_active)).map (·.id) := by
    unfold get_user_accessible_organisations
    rw [if_neg (by rw [hFroles2]; intro hc; cases hc)]
    rw [hFis2, if_pos rfl, hFman]
    rw [hForgs]
  exact ⟨hFmem_d0, hFroles1, hFis1, rfl, hFmem_row, hFroles2, hForgs, hFman, hFacc⟩

/-! Claim C2: reassignment of an organisation's agent. -/

/-- Store refuting C2: the inactive organisation 1 is actively managed by
superadmin user 1; organisation 2 is another active organisation; user 2
is the incoming agent. -/
def st2c : St :=
  { agents := [⟨1, 1, 1, true, some 9, none, none⟩],
    roles := fun n => if n = 1 then Role.superadmin else Role.user,
    orgs := [⟨1, false⟩, ⟨2, true⟩], userOrgs := [], userPerms := [],
    agentPerms := [], now := 4 }

/-- C2 counterexample: the starting store satisfies the uniqueness
invariants and organisation 1 has the active Agent row of user 1, yet
assign_agent(user 2, organisation 1, admin 9) leaves user 1's role at
'superadmin' instead of reverting it to 'user', and afterwards user 2's
accessible organisations are empty rather than exactly the assigned
organisation. -/
theorem C2_cex :
    uniqueActivePerOrg st2c ∧ uniqueActivePerUser st2c ∧ agentIdsDistinct st2c ∧
    (assign_agent st2c 2 1 9 5).state.roles 1 = Role.superadmin ∧
    get_user_accessible_organisations (assign_agent st2c 2 1 9 5).state 2 = [] := by
  decide

/-- C2 amended: provided the displaced user is not a superadmin and the
organisation is active, reassignment behaves as the claim states: the old
row is deactivated with revoked_by stamped to the assigner and revoked_at
stamped, the displaced user's role reverts to 'user', the returned row is
the fresh active assignment of the incoming user, and the incoming user's
accessible organisations are exactly the assigned organisation. -/
theorem C2_amended_reassignment (st : St) (u2 ab nid : Nat) (a0 : AgentRow)
    (o : OrgRow)
    (hOrg : uniqueActivePerOrg st) (hUser : uniqueActivePerUser st)
    (hIds : agentIdsDistinct st) (hOIds : orgIdsDistinct st)
    (hmem : a0 ∈ st.agents) (hact : a0.is_active = true)
    (hne : u2 ≠ a0.userId) (hsa1 : st.roles a0.userId ≠ Role.superadmin)
    (homem : o ∈ st.orgs) (hoid : o.id = a0.orgId) (hoact : o.is_active = true) :
    deactivate (some ab) st.now a0 ∈ (assign_agent st u2 a0.orgId ab nid).state.agents ∧
    (assign_agent st u2 a0.orgId ab nid).state.roles a0.userId = Role.user ∧
    (assign_agent st u2 a0.orgId ab nid).newAgent =
      ⟨nid, u2, a0.orgId, true, some ab, none, none⟩ ∧
    (assign_agent st u2 a0.orgId ab nid).newAgent ∈
      (assign_agent st u2 a0.orgId ab nid).state.agents ∧
    get_user_accessible_organisations (assign_agent st u2 a0.orgId ab nid).state u2 =
      [a0.orgId] := by
  obtain ⟨c1, c2, _, c4, c5, _, _, _, c9⟩ :=
    assign_agent_spec st u2 ab nid a0 hOrg hUser hIds hmem hact hne hsa1
  refine ⟨c1, c2, c4, c5, ?_⟩
  rw [c9]
  have hcontra : ∀ x y : OrgRow,
      (fun x => decide (x.id = a0.orgId) && x.is_active) x = true →
      (fun x => decide (x.id = a0.orgId) && x.is_active) y = true →
      x.id ≠ y.id → False := by
    intro x y hx hy hR
    simp only [Bool.and_eq_true, decide_eq_true_eq] at hx hy
    exact hR (hx.1.trans hy.1.symm)
  have hsingle : st.orgs.filter (fun x => decide (x.id = a0.orgId) && x.is_active)
      = [o] :=
    filter_eq_singleton_of_unique hOIds hcontra o homem (by simp [hoid, hoact])
  rw [hsingle]
  simp [hoid]

/-- Row and store used to witness the amended C2: user 1 is the active
agent of the active organisation 3; user 2 is the incoming agent. -/
def wrow2 : AgentRow := ⟨1, 1, 3, true, some 9, none, none⟩

/-- Store holding exactly the row wrow2 and the active organisation 3. -/
def w2 : St :=
  { agents := [wrow2],
    roles := fun n => if n = 1 then Role.superuser else Role.user,
    orgs := [⟨3, true⟩], userOrgs := [], userPerms := [], agentPerms := [], now := 2 }

theorem C2_amended_reassignment_witness :
    (uniqueActivePerOrg w2 ∧ uniqueActivePerUser w2 ∧ agentIdsDistinct w2 ∧
      orgIdsDistinct w2 ∧ wrow2 ∈ w2.agents ∧ wrow2.is_active = true ∧
      (2 : Nat) ≠ wrow2.userId ∧ w2.roles wrow2.userId ≠ Role.superadmin ∧
      (⟨3, true⟩ : OrgRow) ∈ w2.orgs) ∧
    (deactivate (some 9) w2.now wrow2 ∈ (assign_agent w2 2 wrow2.orgId 9 7).state.agents ∧
      (assign_agent w2 2 wrow2.orgId 9 7).state.roles wrow2.userId = Role.user ∧
      (assign_agent w2 2 wrow2.orgId 9 7).newAgent =
        ⟨7, 2, wrow2.orgId, true, some 9, none, none⟩ ∧
      (assign_agent w2 2 wrow2.orgId 9 7).newAgent ∈
        (assign_agent w2 2 wrow2.orgId 9 7).state.agents ∧
      get_user_accessible_organisations (assign_agent w2 2 wrow2.orgId 9 7).state 2 =
        [wrow2.orgId]) :=
  ⟨⟨by decide, by decide, by decide, by decide, by decide, by decide, by decide,
      by decide, by decide⟩,
    C2_amended_reassignment w2 2 9 7 wrow2 ⟨3, true⟩ (by decide) (by decide)
      (by decide) (by decide) (by decide) (by decide) (by decide) (by decide)
      (by decide) (by decide) (by decide)⟩

/-! Claim C5: the three role re-sync paths converge. -/

/-- A user with an active row in the table is an agent. -/
theorem is_agent_of_mem_active (st : St) (row : AgentRow)
    (hmem : row ∈ st.agents) (hact : row.is_active = true) :
    is_agent st row.userId = true := by
  unfold is_agent
  exact List.any_eq_true.mpr ⟨row, hmem, by simp [hact]⟩

/-- revoke_agent on any row of a non-superadmin user whose role satisfies
the §8 role invariant lands the user on 'superuser' exactly when an active
assignment remains, and on 'user' otherwise. -/
theorem revoke_agent_role_spec (st : St) (row : AgentRow) (rb : Option Nat)
    (hUser : uniqueActivePerUser st) (hIds : agentIdsDistinct st)
    (hmem : row ∈ st.agents) (hsa : st.roles row.userId ≠ Role.superadmin)
    (hinv : st.roles row.userId = Role.superuser ↔ is_agent st row.userId = true) :
    ∃ st' r, revoke_agent st row.id rb = some (st', r) ∧
      st'.roles row.userId =
        (if is_agent st' row.userId = true then Role.superuser else Role.user) := by
  have hfind : st.agents.find? (fun a => a.id = row.id) = some row :=
    find?_eq_some_of_mem_unique st.agents hIds row hmem row.id rfl
  refine ⟨sync_role_with_agent_status
      (agent_save_update st (deactivate rb st.now row)) row.userId,
    deactivate rb st.now row, ?_, ?_⟩
  · unfold revoke_agent
    rw [hfind]
  · cases hactive : row.is_active with
    | true =>
      have hr : st.roles row.userId = Role.superuser :=
        hinv.mpr (is_agent_of_mem_active st row hmem hactive)
      have hsave := agent_save_update_deact_spec st row rb st.now hIds hUser hmem hactive
      rw [if_pos hr] at hsave
      have hSfalse : is_agent
          { (setRole st row.userId Role.user) with
            agents := replaceAgent st.agents (deactivate rb st.now row) }
            row.userId = false :=
        no_active_user_replace st.agents row (deactivate rb st.now row) row.userId
          hUser hmem hactive rfl rfl rfl
      have hsync : sync_role_with_agent_status
          { (setRole st row.userId Role.user) with
            agents := replaceAgent st.agents (deactivate rb st.now row) }
            row.userId =
          { (setRole st row.userId Role.user) with
            agents := replaceAgent st.agents (deactivate rb st.now row) } := by
        apply sync_role_roles_invariant
        · intro _
          constructor
          · intro hc
            rw [setRole_roles_self] at hc
            cases hc
          · intro hc
            rw [hSfalse] at hc
            cases hc
        · intro hc
          rw [hSfalse] at hc
          exact absurd hc.2 (by simp)
      rw [hsave, hsync, hSfalse]
      rw [if_neg (by simp)]
      exact setRole_roles_self st row.userId Role.user
    | false =>
      have hsave := agent_save_update_inactive_spec st row rb st.now hIds hmem hactive
      have hag : is_agent
          { st with agents := replaceAgent st.agents (deactivate rb st.now row) }
            row.userId = is_agent st row.userId :=
        is_agent_replace_inactive st row (deactivate rb st.now row) row.userId
          hIds hmem hactive rfl rfl
      have hsync : sync_role_with_agent_status
          { st with agents := replaceAgent st.agents (deactivate rb st.now row) }
            row.userId =
          { st with agents := replaceAgent st.agents (deactivate rb st.now row) } := by
        apply sync_role_roles_invariant
        · intro _
          rw [hag]
          exact hinv
        · intro hc
          exact hsa hc.1
      rw [hsave, hsync, hag]
      cases hcase : is_agent st row.userId with
      | true =>
        rw [if_pos rfl]
        exact hinv.mpr hcase
      | false =>
        rw [if_neg (by simp)]
        have hnsu : st.roles row.userId ≠ Role.superuser := by
          intro hc
          rw [hinv.mp hc] at hcase
          cases hcase
        show st.roles row.userId = Role.user
        cases hv : st.roles row.userId with
        | user => rfl
        | superuser => exact absurd hv hnsu
        | superadmin => exact absurd hv hsa

/-- Deleting any row of a non-superadmin user whose role satisfies the §8
role invariant lands the user on 'superuser' exactly when an active
assignment remains, and on 'user' otherwise. -/
theorem agent_delete_role_spec (st : St) (row : AgentRow)
    (hUser : uniqueActivePerUser st) (hIds : agentIdsDistinct st)
    (hmem : row ∈ st.agents) (hsa : st.roles row.userId ≠ Role.superadmin)
    (hinv : st.roles row.userId = Role.superuser ↔ is_agent st row.userId = true) :
    (agent_delete st row.id).roles row.userId =
      (if is_agent (agent_delete st row.id) row.userId = true
        then Role.superuser else Role.user) := by
  have hsymm : Symmetric (fun a b : AgentRow => a.id ≠ b.id) := fun a b h => Ne.symm h
  have hsymmU : Symmetric (fun a b : AgentRow =>
      a.is_active = true → b.is_active = true → a.userId ≠ b.userId) :=
    fun a b h hb ha => (h ha hb).symm
  have hfind : st.agents.find? (fun b => b.id = row.id) = some row :=
    find?_eq_some_of_mem_unique st.agents hIds row hmem row.id rfl
  unfold agent_delete
  rw [hfind]
  dsimp only
  cases hactive : row.is_active with
  | true =>
    have hnone : ((st.agents.filter (fun b => decide (b.id ≠ row.id))).any
        (fun b => decide (b.userId = row.userId) && b.is_active)) = false := by
      rw [List.any_eq_false]
      intro x hx hpx
      simp only [Bool.and_eq_true, decide_eq_true_eq] at hpx
      have hxmem : x ∈ st.agents := (List.mem_filter.mp hx).1
      have hxid : x.id ≠ row.id := by
        have := List.of_mem_filter hx
        simpa using this
      have hxne : x ≠ row := fun hc => hxid (by rw [hc])
      exact (hUser.forall hsymmU hxmem hmem hxne) hpx.2 hactive hpx.1
    have hr : st.roles row.userId = Role.superuser :=
      hinv.mpr (is_agent_of_mem_active st row hmem hactive)
    unfold sync_user_role_on_agent_delete
    rw [if_pos ⟨hnone, hr⟩]
    have hia : is_agent (setRole
        { st with agents := st.agents.filter (fun b => decide (b.id ≠ row.id)) }
        row.userId Role.user) row.userId = false := hnone
    rw [hia, setRole_roles_self]
    rw [if_neg (by simp)]
  | false =>
    have hagEq : ((st.agents.filter (fun b => decide (b.id ≠ row.id))).any
        (fun b => decide (b.userId = row.userId) && b.is_active)) =
        is_agent st row.userId := by
      apply Bool.eq_iff_iff.mpr
      unfold is_agent
      simp only [List.any_eq_true, List.mem_filter, Bool.and_eq_true,
        decide_eq_true_eq]
      constructor
      · rintro ⟨x, ⟨hx, _⟩, hpx⟩
        exact ⟨x, hx, hpx⟩
      · rintro ⟨x, hx, hpx⟩
        have hxne : x ≠ row := by
          intro hc
          rw [hc, hactive] at hpx
          exact absurd hpx.2 (by simp)
        exact ⟨x, ⟨hx, by simpa using hIds.forall hsymm hx hmem hxne⟩, hpx⟩
    unfold sync_user_role_on_agent_delete
    cases hcase : is_agent st row.userId with
    | true =>
      rw [if_neg (fun hc => by rw [hagEq, hcase] at hc; cases hc.1)]
      have h1 : is_agent
          { st with agents := st.agents.filter (fun b => decide (b.id ≠ row.id)) }
            row.userId = true := by
        show ((st.agents.filter (fun b => decide (b.id ≠ row.id))).any
          (fun b => decide (b.userId = row.userId) && b.is_active)) = true
        rw [hagEq]
        exact hcase
      rw [h1, if_pos rfl]
      exact hinv.mpr hcase
    | false =>
      have hnsu : st.roles row.userId ≠ Role.superuser := by
        intro hc
        rw [hinv.mp hc] at hcase
        cases hcase
      rw [if_neg (fun hc => hnsu hc.2)]
      have h1 : is_agent
          { st with agents := st.agents.filter (fun b => decide (b.id ≠ row.id)) }
            row.userId = false := by
        show ((st.agents.filter (fun b => decide (b.id ≠ row.id))).any
          (fun b => decide (b.userId = row.userId) && b.is_active)) = false
        rw [hagEq]
        exact hcase
      rw [h1, if_neg (by simp)]
      show st.roles row.userId = Role.user
      cases hv : st.roles row.userId with
      | user => rfl
      | superuser => exact absurd hv hnsu
      | superadmin => exact absurd hv hsa

/-- C5: for a non-superadmin user whose role satisfies the §8 role
invariant, the three triggering paths — revocation of the user's row,
reassignment that evicts the user, and outright deletion of the user's
row — all land the user's role on 'superuser' exactly when an active
Agent row remains for them and on 'user' otherwise. -/
theorem C5_role_resync_convergence (st : St) (u : Nat) (rb : Option Nat)
    (hOrg : uniqueActivePerOrg st) (hUser : uniqueActivePerUser st)
    (hIds : agentIdsDistinct st) (hsa : st.roles u ≠ Role.superadmin)
    (hinv : st.roles u = Role.superuser ↔ is_agent st u = true) :
    (∀ row ∈ st.agents, row.userId = u →
      ∃ st' r, revoke_agent st row.id rb = some (st', r) ∧
        st'.roles u = (if is_agent st' u = true then Role.superuser else Role.user)) ∧
    (∀ row ∈ st.agents, row.userId = u → row.is_active = true →
      ∀ u2 ab nid, u2 ≠ u →
        (assign_agent st u2 row.orgId ab nid).state.roles u =
          (if is_agent (assign_agent st u2 row.orgId ab nid).state u = true
            then Role.superuser else Role.user)) ∧
    (∀ row ∈ st.agents, row.userId = u →
      (agent_delete st row.id).roles u =
        (if is_agent (agent_delete st row.id) u = true
          then Role.superuser else Role.user)) := by
  refine ⟨fun row hmem hu => ?_, fun row hmem hu hact u2 ab nid hne2 => ?_,
    fun row hmem hu => ?_⟩
  · subst hu
    exact revoke_agent_role_spec st row rb hUser hIds hmem hsa hinv
  · subst hu
    obtain ⟨_, c2, c3, _, _, _, _, _, _⟩ :=
      assign_agent_spec st u2 ab nid row hOrg hUser hIds hmem hact hne2 hsa
    rw [c2, c3, if_neg (by simp)]
  · subst hu
    exact agent_delete_role_spec st row hUser hIds hmem hsa hinv

/-- Row and store used to witness C5: user 1 holds the single active row
for organisation 2 and carries the matching 'superuser' role. -/
def wrow5 : AgentRow := ⟨1, 1, 2, true, some 9, none, none⟩

/-- Store holding exactly the row wrow5. -/
def w5 : St :=
  { agents := [wrow5],
    roles := fun n => if n = 1 then Role.superuser else Role.user,
    orgs := [⟨2, true⟩], userOrgs := [], userPerms := [], agentPerms := [], now := 6 }

theorem C5_role_resync_convergence_witness :
    (uniqueActivePerOrg w5 ∧ uniqueActivePerUser w5 ∧ agentIdsDistinct w5 ∧
      w5.roles 1 ≠ Role.superadmin ∧
      (w5.roles 1 = Role.superuser ↔ is_agent w5 1 = true) ∧
      wrow5 ∈ w5.agents ∧ wrow5.userId = 1) ∧
    (agent_delete w5 wrow5.id).roles 1 =
      (if is_agent (agent_delete w5 wrow5.id) 1 = true
        then Role.superuser else Role.user) :=
  ⟨⟨by decide, by decide, by decide, by decide, by decide, by decide, by decide⟩,
    (C5_role_resync_convergence w5 1 none (by decide) (by decide) (by decide)
      (by decide) (by decide)).2.2 wrow5 (by decide) (by decide)⟩

/-! Claim C7: assign_agent opens no transaction, so an interruption after
the eviction loop exposes the partial state the spec forbids. -/

/-- Store exercising C7: user 1 actively manages organisation 4; user 2 is
about to be assigned in their place. -/
def st7 : St :=
  { agents := [⟨1, 1, 4, true, some 9, none, none⟩],
    roles := fun n => if n = 1 then Role.superuser else Role.user,
    orgs := [⟨4, true⟩], userOrgs := [], userPerms := [], agentPerms := [], now := 3 }

/-- C7: assign_agent is, by its own definition, the sequential composition
of the organisation-eviction write phase, the user-eviction write phase,
the row creation, and the role write — with no transaction around them.
The state after the organisation-eviction phase alone, which is exactly
what the store holds if the subsequent Agent.objects.create raises, has
organisation 4 stripped of every active agent while no row for the
incoming user 2 exists: the partial application the claim says is never
observable. -/
theorem C7_partial_state_observable :
    (assign_agent st7 2 4 9 5).state =
      setRole (agent_create (evictUserAgents (evictOrgAgents st7 4 9) 2 9)
        ⟨5, 2, 4, true, some 9, none, none⟩) 2 Role.superuser ∧
    (∀ x ∈ (evictOrgAgents st7 4 9).agents, x.orgId = 4 → x.is_active = false) ∧
    (∀ x ∈ (evictOrgAgents st7 4 9).agents, x.userId ≠ 2) := by
  exact ⟨rfl, by decide, by decide⟩

end Callfairy

